import Mathlib

/-!
Shallow embedding of `src/api/observables.py` (Qualys IOC → CTIM mapper).

JSON-like values are modelled by `JVal`; Python runtime failures (TypeError,
KeyError, AttributeError, `raise_for_status` HTTPError) are modelled with
`Except PyErr`.  The non-deterministic `uuid4()` supply is modelled by a
function `u : Nat → String` together with a counter threaded through the
constructors in the exact order the Python code calls `uuid4()`.
-/

namespace Qualys

/-- JSON-like values as produced by `response.json()`.  Numbers are modelled
by `Int` (no claim in this development depends on non-integral numbers).
Object keys are strings, as in JSON. -/
inductive JVal where
  | null : JVal
  | bool : Bool → JVal
  | num : Int → JVal
  | str : String → JVal
  | arr : List JVal → JVal
  | obj : List (String × JVal) → JVal

/-- Python runtime failures relevant to this module. -/
inductive PyErr where
  | typeError : PyErr
  | keyError : PyErr
  | attributeError : PyErr
  /-- `requests.Response.raise_for_status` HTTPError, carrying the status. -/
  | httpError : Nat → PyErr
deriving DecidableEq

/-- Python truthiness of a JSON value. -/
def JVal.truthy : JVal → Bool
  | .null => false
  | .bool b => b
  | .num n => n != 0
  | .str s => s != ""
  | .arr xs => !xs.isEmpty
  | .obj kvs => !kvs.isEmpty

/-- Python `a or b` for JSON values. -/
def pythonOr (a b : JVal) : JVal := if a.truthy then a else b

/-- Python iteration (`for x in v`): lists yield elements, strings yield
one-character strings, dicts yield their keys, everything else raises
`TypeError`. -/
def pyIter : JVal → Except PyErr (List JVal)
  | .arr xs => .ok xs
  | .str s => .ok (s.toList.map fun c => .str c.toString)
  | .obj kvs => .ok (kvs.map fun kv => .str kv.1)
  | _ => .error .typeError

/-- Python `x.get(k, default)` for a string key: works on dicts, raises
`AttributeError` on any other value. -/
def pyDictGet (x : JVal) (k : String) (dflt : JVal) : Except PyErr JVal :=
  match x with
  | .obj kvs => .ok ((kvs.lookup k).getD dflt)
  | _ => .error .attributeError

/-- Python `x[k]` for a string key `k`: dict lookup (KeyError when missing),
`TypeError` on any non-dict value. -/
def pyIndexStr (x : JVal) (k : String) : Except PyErr JVal :=
  match x with
  | .obj kvs =>
    match kvs.lookup k with
    | some v => .ok v
    | none => .error .keyError
  | _ => .error .typeError

/-- Character-list segmentation used to model Python `str.split(sep)`. -/
def splitSeg (sep : Char) : List Char → List (List Char)
  | [] => [[]]
  | c :: cs =>
    if c == sep then [] :: splitSeg sep cs
    else
      match splitSeg sep cs with
      | [] => [[c]]
      | g :: gs => (c :: g) :: gs

/-- Python `s.split(sep)` for a one-character separator. -/
def pySplit (s : String) (sep : Char) : List String :=
  (splitSeg sep s.toList).map fun cs => String.mk cs

/-- `leadMatch xs ys` holds when `xs` is an initial run of `ys`. -/
def leadMatch : List Char → List Char → Bool
  | [], _ => true
  | _ :: _, [] => false
  | a :: as, b :: bs => a == b && leadMatch as bs

/-- `hasRun xs ys` holds when `xs` occurs contiguously inside `ys`. -/
def hasRun (xs : List Char) : List Char → Bool
  | [] => leadMatch xs []
  | y :: ys => leadMatch xs (y :: ys) || hasRun xs ys

/-- Python substring containment `small in big` for strings. -/
def strHasSub (small big : String) : Bool :=
  hasRun small.toList big.toList

/-- Python `part in v` for a string `part`, followed by Python `v[part]`,
as performed by each step of `get`'s loop: on a dict, key membership then
lookup; on a string or list a successful membership test leads to a string
index and hence `TypeError`, a failed one means the loop returns the default;
on any other value the membership test itself raises `TypeError`.
`getAux result parts default` walks the remaining path segments. -/
def getAux : JVal → List String → JVal → Except PyErr JVal
  | result, [], _ => .ok result
  | result, part :: rest, dflt =>
    match result with
    | .obj kvs =>
      match kvs.lookup part with
      | some v => getAux v rest dflt
      | none => .ok dflt
    | .str s => if strHasSub part s then .error .typeError else .ok dflt
    | .arr xs =>
      if xs.any (fun v => match v with | .str t => t == part | _ => false) then
        .error .typeError
      else .ok dflt
    | _ => .error .typeError

/-- `get(event, path, default=None)` from the source: split the path on dots,
skip the first segment, then walk the record. -/
def get (event : JVal) (path : String) (dflt : JVal := .null) : Except PyErr JVal :=
  getAux event ((pySplit path '.').drop 1) dflt

/-- The closed set of observable kinds (the seven `Observable` subclasses,
in definition order). -/
inductive Kind where
  | md5 | sha256 | file_name | file_path | ip | domain | mutex
deriving DecidableEq

/-- The subclass list traversed by `Observable.of` (definition order). -/
def subclassList : List Kind :=
  [.md5, .sha256, .file_name, .file_path, .ip, .domain, .mutex]

/-- `type()` static method of each subclass. -/
def Kind.type : Kind → String
  | .md5 => "md5"
  | .sha256 => "sha256"
  | .file_name => "file_name"
  | .file_path => "file_path"
  | .ip => "ip"
  | .domain => "domain"
  | .mutex => "mutex"

/-- `name()` static method of each subclass. -/
def Kind.name : Kind → String
  | .md5 => "MD5"
  | .sha256 => "SHA256"
  | .file_name => "file name"
  | .file_path => "file path"
  | .ip => "IP"
  | .domain => "domain"
  | .mutex => "mutex"

/-- `filter()` method of each subclass. -/
def Kind.filter : Kind → String → String
  | .md5, o => "file.hash.md5: \"" ++ o ++ "\""
  | .sha256, o => "file.hash.sha256: \"" ++ o ++ "\""
  | .file_name, o => "file.name: \"" ++ o ++ "\""
  | .file_path, o => "file.fullPath: \"" ++ o ++ "\""
  | .ip, o =>
    "network.local.address.ip: \"" ++ o ++ "\" or network.remote.address.ip: \"" ++ o ++ "\""
  | .domain, o => "network.remote.address.fqdn: \"" ++ o ++ "\""
  | .mutex, o => "handle.name: \"" ++ o ++ "\""

/-- `Observable.of`: scan the subclasses for one whose `type()` equals the
requested tag. -/
def Observable.of (type_ : String) : Option Kind :=
  subclassList.find? fun cls => cls.type == type_

/-- An `{type, value}` pair referencing the triggering observable. -/
structure ObsTV where
  type : String
  value : String
deriving DecidableEq

/-- One endpoint of an inferred relation (`source` or `related`). -/
structure RelPart where
  type : String
  value : JVal

/-- An inferred relation, as yielded by `relations`. -/
structure Relation where
  origin : String
  related : RelPart
  relation : String
  source : RelPart

/-- A `{type, value}` pair yielded by `targets`. -/
structure TargetObs where
  type : String
  value : JVal

/-- The single target block of a sighting. -/
structure Target where
  observables : List TargetObs
  observed_time_start : JVal
  type : String
  os : JVal

/-- One column descriptor of the sighting's data table. -/
structure Column where
  name : String
  type : String

/-- The sighting's `data` table. -/
structure SightingData where
  columns : List Column
  rows : List (List String)
  row_count : Nat

/-- The sighting dict built by `map`'s `sighting()` closure.  Nested
one-field dicts (`observed_time`) are flattened into `observed_time_start`. -/
structure Sighting where
  id : String
  confidence : String
  count : Nat
  external_ids : List JVal
  external_references : List JVal
  observables : List ObsTV
  observed_time_start : JVal
  relations : List Relation
  schema_version : String
  severity : String
  sensor : String
  source : String
  targets : List Target
  type : String
  description : String
  data : SightingData

/-- The judgement dict built by `map`'s `judgement(indicator2)` closure. -/
structure Judgement where
  id : String
  confidence : String
  disposition : Nat
  disposition_name : String
  external_ids : List JVal
  observable : ObsTV
  priority : Nat
  reason : JVal
  schema_version : String
  severity : String
  source : String
  type : String
  valid_time : Unit

/-- The indicator dict built by `map`'s `indicator()` closure. -/
structure Indicator where
  id : String
  type : String
  schema_version : String
  source : String
  producer : String
  severity : String
  valid_time : Unit
  external_ids : List JVal
  confidence : String

/-- The relationship dict built by `map`'s `relationship(...)` generator. -/
structure Relationship where
  id : String
  type : String
  schema_version : String
  source : String
  source_uri : String
  source_ref : String
  target_ref : String
  relationship_type : String
  external_ids : List JVal

/-- One rule of the relation inferencer: source `(type, path)`, relation
label, target `(type, path)`. -/
structure Rule where
  sourceType : String
  sourcePath : String
  label : String
  targetType : String
  targetPath : String

/-- The fixed ordered rule list of `relations` (source order). -/
def relationRules : List Rule :=
  [⟨"file_name", ".file.fileName", "File_Name_Of", "sha256", ".file.sha256"⟩,
   ⟨"file_name", ".file.fileName", "File_Name_Of", "md5", ".file.md5"⟩,
   ⟨"file_path", ".file.fullPath", "File_Path_Of", "sha256", ".file.sha256"⟩,
   ⟨"file_path", ".file.fullPath", "File_Path_Of", "md5", ".file.md5"⟩,
   ⟨"file_name", ".process.processName", "Connected_To", "ip", ".network.remoteIP"⟩,
   ⟨"file_name", ".process.processName", "Connected_To", "domain", ".network.remoteDns"⟩,
   ⟨"ip", ".network.remoteIP", "Resolved_To", "domain", ".network.remoteDns"⟩]

/-- The `mapped` generator inside `relations`: for each rule resolve both
paths, and yield a relation when both values are truthy. -/
def relationsAux (event : JVal) : List Rule → Except PyErr (List Relation)
  | [] => .ok []
  | r :: rs => do
    let sv ← get event r.sourcePath
    let tv ← get event r.targetPath
    let rest ← relationsAux event rs
    .ok (if sv.truthy && tv.truthy then
           { origin := "Qualys IOC", related := ⟨r.targetType, tv⟩,
             relation := r.label, source := ⟨r.sourceType, sv⟩ } :: rest
         else rest)

/-- `relations(event)` from the source. -/
def relations (event : JVal) : Except PyErr (List Relation) :=
  relationsAux event relationRules

/-- The per-interface part of the `targets` generator. -/
def targetsIfs : List JVal → Except PyErr (List TargetObs)
  | [] => .ok []
  | i :: is_ => do
    let ipv ← pyDictGet i "ipAddress" .null
    let h₁ ← if ipv.truthy then do
        let v ← pyIndexStr i "ipAddress"
        pure [TargetObs.mk "ip" v]
      else pure []
    let macv ← pyDictGet i "macAddress" .null
    let h₂ ← if macv.truthy then do
        let v ← pyIndexStr i "macAddress"
        pure [TargetObs.mk "mac_address" v]
      else pure []
    let rest ← targetsIfs is_
    .ok (h₁ ++ h₂ ++ rest)

/-- `targets(event)` from the source.  Note that the source indexes
`event['asset']` directly (no default), so an event without an `asset` key
raises `KeyError`. -/
def targets (event : JVal) : Except PyErr (List TargetObs) := do
  let asset ← pyIndexStr event "asset"
  let nb ← pyDictGet asset "netBiosName" .null
  let head ← if nb.truthy then do
      let a ← pyIndexStr event "asset"
      let v ← pyIndexStr a "netBiosName"
      pure [TargetObs.mk "hostname" v]
    else pure []
  let ifsAsset ← pyIndexStr event "asset"
  let ifsv ← pyDictGet ifsAsset "interfaces" .null
  let ifs ← pyIter (pythonOr ifsv (.arr []))
  let rest ← targetsIfs ifs
  .ok (head ++ rest)

/-- `confidence` constant captured by `map`'s closures. -/
def confidence : String := "High"

/-- `severity` constant captured by `map`'s closures. -/
def severity : String := "Medium"

/-- `schema` constant captured by `map`'s closures. -/
def schema : String := "1.0.16"

/-- Python `str(bool)`. -/
def pyStrBool (b : Bool) : String := if b then "True" else "False"

/-- Python dict `.get(key)` where the key is an arbitrary JSON value: an
unhashable key (list or dict) raises `TypeError`; a hashable non-string key
matches none of the string keys of the table. -/
def hashableGet {α : Type} (pairs : List (String × α)) (key : JVal) : Except PyErr (Option α) :=
  match key with
  | .arr _ => .error .typeError
  | .obj _ => .error .typeError
  | .str s => .ok (pairs.lookup s)
  | _ => .ok none

/-- Python `x or d` where `x` is an optional number (0 is falsy). -/
def pyOrNat (x : Option Nat) (d : Nat) : Nat :=
  match x with
  | some v => if v != 0 then v else d
  | none => d

/-- Python `x or d` where `x` is an optional string (the empty string is
falsy). -/
def pyOrStr (x : Option String) (d : String) : String :=
  match x with
  | some v => if v != "" then v else d
  | none => d

/-- `map`'s `sighting()` closure. -/
def sightingBuild (u : Nat → String) (kindType observable : String) (event : JVal)
    (active : Bool) (n : Nat) : Except PyErr (Sighting × Nat) := do
  let eid ← get event ".id"
  let dt ← get event ".dateTime"
  let rels ← relations event
  let tgts ← targets event
  let dt₂ ← get event ".dateTime"
  let os ← get event ".asset.fullOSName"
  .ok ({ id := "transient:" ++ u n,
         confidence := confidence,
         count := 1,
         external_ids := [eid],
         external_references := [],
         observables := [⟨kindType, observable⟩],
         observed_time_start := dt,
         relations := rels,
         schema_version := schema,
         severity := severity,
         sensor := "endpoint",
         source := "Qualys IOC",
         targets := [⟨tgts, dt₂, "endpoint", os⟩],
         type := "sighting",
         description := "A Qualys IOC event related to \"" ++ observable ++ "\"",
         data := ⟨[⟨"Active", "string"⟩], [[pyStrBool active]], 1⟩ }, n + 1)

/-- `map`'s `judgement(indicator2)` closure, for one entry `x` of the
`.indicator2` list. -/
def judgementBuild (u : Nat → String) (kindType observable : String) (event x : JVal)
    (n : Nat) : Except PyErr (Judgement × Nat) := do
  let verdict ← pyDictGet x "verdict" .null
  let dcode ← hashableGet [("KNOWN", 1), ("UNKNOWN", 5), ("MALICIOUS", 2), ("REMEDIATED", 2)] verdict
  let dname ← hashableGet
      [("KNOWN", "Clean"), ("UNKNOWN", "Unknown"), ("MALICIOUS", "Malicious"), ("REMEDIATED", "Malicious")]
      verdict
  let eid ← get event ".id"
  let reason ← pyDictGet x "threatName" (.str "")
  .ok ({ id := "transient:" ++ u n,
         confidence := confidence,
         disposition := pyOrNat dcode 5,
         disposition_name := pyOrStr dname "Unknown",
         external_ids := [eid],
         observable := ⟨kindType, observable⟩,
         priority := 90,
         reason := reason,
         schema_version := schema,
         severity := severity,
         source := "Qualys IOC",
         type := "judgement",
         valid_time := () }, n + 1)

/-- `[judgement(x) for x in ...]`, threading the uuid counter left to
right. -/
def judgementsBuild (u : Nat → String) (kindType observable : String) (event : JVal) :
    List JVal → Nat → Except PyErr (List Judgement × Nat)
  | [], n => .ok ([], n)
  | x :: xs, n => do
    let (j, n₁) ← judgementBuild u kindType observable event x n
    let (js, n₂) ← judgementsBuild u kindType observable event xs n₁
    .ok (j :: js, n₂)

/-- `map`'s `indicator()` closure. -/
def indicatorBuild (u : Nat → String) (event : JVal) (n : Nat) :
    Except PyErr (Indicator × Nat) := do
  let eid ← get event ".id"
  .ok ({ id := "transient:" ++ u n,
         type := "indicator",
         schema_version := schema,
         source := "Qualys IOC",
         producer := "Qualys IOC",
         severity := severity,
         valid_time := (),
         external_ids := [eid],
         confidence := confidence }, n + 1)

/-- Inner loop of `map`'s `relationship(...)` generator: one source, all
targets. -/
def relTgts (u : Nat → String) (sourceId type_ : String) :
    List String → Nat → List Relationship × Nat
  | [], n => ([], n)
  | t :: ts, n =>
    let r : Relationship :=
      { id := "transient:" ++ u n,
        type := "relationship",
        schema_version := schema,
        source := "Qualys IOC",
        source_uri := "",
        source_ref := sourceId,
        target_ref := t,
        relationship_type := type_,
        external_ids := [] }
    let (rest, m) := relTgts u sourceId type_ ts (n + 1)
    (r :: rest, m)

/-- `map`'s `relationship(sources_, type_, targets_)` generator, applied to
the `id` fields of previously built entities. -/
def relationship (u : Nat → String) :
    List String → String → List String → Nat → List Relationship × Nat
  | [], _, _, n => ([], n)
  | s :: ss, type_, targets_, n =>
    let (inner, n₁) := relTgts u s type_ targets_ n
    let (rest, n₂) := relationship u ss type_ targets_ n₁
    (inner ++ rest, n₂)

/-- The four entity lists returned by `map`. -/
structure Bundle where
  sightings : List Sighting
  judgements : List Judgement
  indicators : List Indicator
  relationships : List Relationship

/-- `Observable.map`: build one sighting, the judgements, one indicator and
the relationship cross products, in source order (which is also the order
`uuid4()` is called). -/
def map (u : Nat → String) (kindType observable : String) (event : JVal)
    (active : Bool) (n : Nat) : Except PyErr (Bundle × Nat) := do
  let (s, n₁) ← sightingBuild u kindType observable event active n
  let ind2 ← get event ".indicator2"
  let entries ← pyIter (pythonOr ind2 (.arr []))
  let (js, n₂) ← judgementsBuild u kindType observable event entries n₁
  let (ind, n₃) ← indicatorBuild u event n₂
  let (r₁, n₄) := relationship u (js.map (·.id)) "based-on" [ind.id] n₃
  let (r₂, n₅) := relationship u [s.id] "based-on" (js.map (·.id)) n₄
  let (r₃, n₆) := relationship u [s.id] "sighting-of" [ind.id] n₅
  .ok ({ sightings := [s], judgements := js, indicators := [ind],
         relationships := r₁ ++ r₂ ++ r₃ }, n₆)

/-- An HTTP response: status code and already-decoded JSON body. -/
structure Response where
  status : Nat
  body : JVal

/-- The transport: `requests.get(url, headers=headers(fresh))` modelled as a
function of the url and the `fresh` flag passed to `headers`. -/
def Transport : Type := String → Bool → Response

/-- The query URL built by `fetch` inside `observe`: the `state=true` flag is
present exactly in the active phase, the filter always. -/
def qualysURL (api filt : String) (active_ : Bool) : String :=
  if active_ then api ++ "/ioc/events?state=true&filter=" ++ filt
  else api ++ "/ioc/events?filter=" ++ filt

/-- `observe`'s local `fetch(active_)`: one GET, one retry with fresh
credentials when the status is 401, then `raise_for_status` (which raises
exactly for statuses in [400, 600)).  Also returns the list of
`(url, fresh)` requests issued, in order. -/
def fetch (http : Transport) (api filt : String) (active_ : Bool) :
    Except PyErr JVal × List (String × Bool) :=
  let url := qualysURL api filt active_
  let first := http url false
  let (response, trace) :=
    if first.status = 401 then (http url true, [(url, false), (url, true)])
    else (first, [(url, false)])
  if 400 ≤ response.status ∧ response.status < 600 then
    (.error (.httpError response.status), trace)
  else (.ok response.body, trace)

/-- The CTIM entities as they appear in the merged `observed` dict. -/
inductive Entity where
  | sighting : Sighting → Entity
  | judgement : Judgement → Entity
  | indicator : Indicator → Entity
  | relationship : Relationship → Entity

/-- The `observed` accumulator: an insertion-ordered string-keyed dict. -/
def ObservedMap : Type := List (String × List Entity)

/-- Python `observed.get(key, [])`. -/
def dget (d : ObservedMap) (k : String) : List Entity :=
  (d.lookup k).getD []

/-- Python `observed[key] = v`: update in place when the key exists,
otherwise append at the end. -/
def dset : ObservedMap → String → List Entity → ObservedMap
  | [], k, v => [(k, v)]
  | (k', v') :: rest, k, v =>
    if k' == k then (k', v) :: rest else (k', v') :: dset rest k v

/-- `map(...)`'s returned dict as `.items()`: the four keys in literal
order. -/
def Bundle.items (b : Bundle) : List (String × List Entity) :=
  [("sightings", b.sightings.map .sighting),
   ("judgements", b.judgements.map .judgement),
   ("indicators", b.indicators.map .indicator),
   ("relationships", b.relationships.map .relationship)]

/-- `for obj, docs in ...items(): observed[obj] = observed.get(obj, []) + docs`. -/
def mergeBundle (observed : ObservedMap) (items : List (String × List Entity)) : ObservedMap :=
  items.foldl (fun ob kd => dset ob kd.1 (dget ob kd.1 ++ kd.2)) observed

/-- `for event in fetch(active): ...` — map each event of one phase and merge
its fragments into `observed`, threading the uuid counter. -/
def mapEvents (u : Nat → String) (kindType observable : String) (active : Bool) :
    List JVal → ObservedMap → Nat → Except PyErr (ObservedMap × Nat)
  | [], observed, n => .ok (observed, n)
  | e :: es, observed, n => do
    let (bundle, n₁) ← map u kindType observable e active n
    mapEvents u kindType observable active es (mergeBundle observed bundle.items) n₁

/-- `Observable.observe`: the two-phase fetch (active first), event mapping
and merge.  Returns the result (or the first raised error) together with the
ordered trace of HTTP requests issued. -/
def observe (u : Nat → String) (http : Transport) (kind : Kind)
    (api observable : String) (n : Nat) :
    Except PyErr ObservedMap × List (String × Bool) :=
  let (r₁, t₁) := fetch http api (kind.filter observable) true
  match r₁ with
  | .error e => (.error e, t₁)
  | .ok body₁ =>
    match pyIter body₁ with
    | .error e => (.error e, t₁)
    | .ok evs₁ =>
      match mapEvents u kind.type observable true evs₁ [] n with
      | .error e => (.error e, t₁)
      | .ok (ob₁, n₁) =>
        let (r₂, t₂) := fetch http api (kind.filter observable) false
        match r₂ with
        | .error e => (.error e, t₁ ++ t₂)
        | .ok body₂ =>
          match pyIter body₂ with
          | .error e => (.error e, t₁ ++ t₂)
          | .ok evs₂ =>
            match mapEvents u kind.type observable false evs₂ ob₁ n₁ with
            | .error e => (.error e, t₁ ++ t₂)
            | .ok (ob₂, _) => (.ok ob₂, t₁ ++ t₂)

/-! ## General lemmas -/

theorem strToList_append (s t : String) : (s ++ t).toList = s.toList ++ t.toList := by
  cases s; cases t; rfl

@[simp] theorem exbind_ok {ε α β : Type} (a : α) (f : α → Except ε β) :
    (Except.ok a : Except ε α) >>= f = f a := rfl

@[simp] theorem exbind_err {ε α β : Type} (e : ε) (f : α → Except ε β) :
    (Except.error e : Except ε α) >>= f = Except.error e := rfl

/-! ## Claim C5 — the path accessor

The first two spec examples hold, but the third does not: on
`get({"a": 1}, ".a.b", default=X)` the loop evaluates the Python expression
`'b' in 1`, which raises `TypeError` instead of returning the default.  This
contradicts the function's own docstring ("Returns a value by the specified
path if such exists or default"), so the code, not the claim, is at fault. -/

/-- Claim C5: `get` walks the dot path skipping the leading empty segment and
returns the default when a segment is absent; however, descending into a
non-container raises `TypeError` instead of returning the default, refuting
the "without ever raising" part at the concrete input
`get({"a": 1}, ".a.b", default="X")`. -/
theorem claim5_get_accessor :
    get (.obj []) ".a.b" (.str "X") = .ok (.str "X") ∧
    get (.obj [("a", .obj [("b", .num 1)])]) ".a.b" = .ok (.num 1) ∧
    get (.obj [("a", .num 1)]) ".a.b" (.str "X") = .error .typeError :=
  ⟨rfl, rfl, rfl⟩

/-! ## Claim C8 — the observable registry and filters -/

/-- For each non-IP kind, the literal text preceding the raw value in its
filter string (a single field match opening a double quote). -/
def fieldPre : Kind → String
  | .md5 => "file.hash.md5: \""
  | .sha256 => "file.hash.sha256: \""
  | .file_name => "file.name: \""
  | .file_path => "file.fullPath: \""
  | .ip => ""
  | .domain => "network.remote.address.fqdn: \""
  | .mutex => "handle.name: \""

/-- Claim C8: registry round trip — `Observable.of` on a registered type tag
yields that kind and on an unregistered tag yields `none`; the IP filter is
the OR of a local-address and a remote-address match on the raw value; every
other kind's filter is a single-field match against the raw value in double
quotes (no escaping); and every filter contains the raw value as a
contiguous substring. -/
theorem claim8_registry :
    (∀ k : Kind, Observable.of k.type = some k) ∧
    (∀ s : String, (∀ k : Kind, k.type ≠ s) → Observable.of s = none) ∧
    (∀ v : String, Kind.filter .ip v =
      "network.local.address.ip: \"" ++ v ++ "\" or network.remote.address.ip: \"" ++ v ++ "\"") ∧
    (∀ (k : Kind) (v : String), k ≠ .ip → Kind.filter k v = fieldPre k ++ v ++ "\"") ∧
    (∀ (k : Kind) (v : String), v.toList <:+: (Kind.filter k v).toList) := by
  refine ⟨fun k => by cases k <;> rfl, ?_, fun v => rfl, ?_, ?_⟩
  · intro s h
    simp only [Observable.of, subclassList]
    rw [List.find?_eq_none]
    intro k _
    simp only [beq_iff_eq]
    exact h k
  · intro k v hk
    cases k <;> first | rfl | exact absurd rfl hk
  · intro k v
    cases k
    case ip =>
      exact ⟨"network.local.address.ip: \"".toList,
        ("\" or network.remote.address.ip: \"" ++ v ++ "\"").toList,
        by simp [Kind.filter, strToList_append]⟩
    case md5 =>
      exact ⟨"file.hash.md5: \"".toList, "\"".toList, by simp [Kind.filter, strToList_append]⟩
    case sha256 =>
      exact ⟨"file.hash.sha256: \"".toList, "\"".toList, by simp [Kind.filter, strToList_append]⟩
    case file_name =>
      exact ⟨"file.name: \"".toList, "\"".toList, by simp [Kind.filter, strToList_append]⟩
    case file_path =>
      exact ⟨"file.fullPath: \"".toList, "\"".toList, by simp [Kind.filter, strToList_append]⟩
    case domain =>
      exact ⟨"network.remote.address.fqdn: \"".toList, "\"".toList,
        by simp [Kind.filter, strToList_append]⟩
    case mutex =>
      exact ⟨"handle.name: \"".toList, "\"".toList, by simp [Kind.filter, strToList_append]⟩

/-- Witness for C8 at concrete inputs: the tag "zzz" is unregistered, and the
MD5 filter for the value "abc" is a single-field quoted match. -/
theorem claim8_registry_witness :
    Observable.of "zzz" = none ∧ Kind.filter .md5 "abc" = fieldPre .md5 ++ "abc" ++ "\"" :=
  ⟨claim8_registry.2.1 "zzz" (by intro k; cases k <;> decide),
   claim8_registry.2.2.2.1 .md5 "abc" (by decide)⟩

/-! ## Claim C9 — the relation inferencer -/

/-- Spec-side emission of a single rule, independent of all other rules: a
relation of the documented shape is emitted exactly when both paths resolve
to truthy values. -/
def emitRule (event : JVal) (r : Rule) : Option Relation :=
  match get event r.sourcePath, get event r.targetPath with
  | .ok sv, .ok tv =>
    if sv.truthy && tv.truthy then
      some { origin := "Qualys IOC", related := ⟨r.targetType, tv⟩,
             relation := r.label, source := ⟨r.sourceType, sv⟩ }
    else none
  | _, _ => none

theorem relationsAux_filterMap (event : JVal) :
    ∀ (rules : List Rule) (rs : List Relation),
      relationsAux event rules = .ok rs → rs = rules.filterMap (emitRule event) := by
  intro rules
  induction rules with
  | nil => intro rs h; cases h; rfl
  | cons r rest ih =>
    intro rs h
    simp only [relationsAux] at h
    cases hsv : get event r.sourcePath with
    | error e => rw [hsv] at h; simp at h
    | ok sv =>
      rw [hsv] at h
      cases htv : get event r.targetPath with
      | error e => rw [htv] at h; simp at h
      | ok tv =>
        rw [htv] at h
        cases hrest : relationsAux event rest with
        | error e => rw [hrest] at h; simp at h
        | ok tl =>
          rw [hrest] at h
          simp only [exbind_ok, Except.ok.injEq] at h
          rw [List.filterMap_cons, emitRule, hsv, htv, ← ih tl hrest]
          cases htr : sv.truthy && tv.truthy <;> simp [htr] at h ⊢ <;> exact h.symm

/-- Claim C9: when `relations` succeeds, its output is exactly the
independent per-rule emission over the seven fixed rules in declaration
order — a rule emits precisely when both of its paths resolve to truthy
values, with the documented relation shape, and one rule's absence never
suppresses another rule. -/
theorem claim9_relations (event : JVal) (rs : List Relation)
    (h : relations event = .ok rs) :
    rs = List.filterMap (emitRule event)
      [⟨"file_name", ".file.fileName", "File_Name_Of", "sha256", ".file.sha256"⟩,
       ⟨"file_name", ".file.fileName", "File_Name_Of", "md5", ".file.md5"⟩,
       ⟨"file_path", ".file.fullPath", "File_Path_Of", "sha256", ".file.sha256"⟩,
       ⟨"file_path", ".file.fullPath", "File_Path_Of", "md5", ".file.md5"⟩,
       ⟨"file_name", ".process.processName", "Connected_To", "ip", ".network.remoteIP"⟩,
       ⟨"file_name", ".process.processName", "Connected_To", "domain", ".network.remoteDns"⟩,
       ⟨"ip", ".network.remoteIP", "Resolved_To", "domain", ".network.remoteDns"⟩] :=
  relationsAux_filterMap event relationRules rs h

/-- Witness for C9: an event with `.file.fileName = "f"` and
`.file.sha256 = "h"` (and nothing else) emits exactly the single
`File_Name_Of` and `File_Path_Of`-free relation set from the first rule. -/
theorem claim9_relations_witness :
    [({ origin := "Qualys IOC", related := ⟨"sha256", .str "h"⟩,
        relation := "File_Name_Of", source := ⟨"file_name", .str "f"⟩ } : Relation)] =
    List.filterMap (emitRule (.obj [("file", .obj [("fileName", .str "f"), ("sha256", .str "h")])]))
      [⟨"file_name", ".file.fileName", "File_Name_Of", "sha256", ".file.sha256"⟩,
       ⟨"file_name", ".file.fileName", "File_Name_Of", "md5", ".file.md5"⟩,
       ⟨"file_path", ".file.fullPath", "File_Path_Of", "sha256", ".file.sha256"⟩,
       ⟨"file_path", ".file.fullPath", "File_Path_Of", "md5", ".file.md5"⟩,
       ⟨"file_name", ".process.processName", "Connected_To", "ip", ".network.remoteIP"⟩,
       ⟨"file_name", ".process.processName", "Connected_To", "domain", ".network.remoteDns"⟩,
       ⟨"ip", ".network.remoteIP", "Resolved_To", "domain", ".network.remoteDns"⟩] :=
  claim9_relations (.obj [("file", .obj [("fileName", .str "f"), ("sha256", .str "h")])]) _ rfl

/-! ## Decomposition of a successful `map` (shared helper) -/

theorem map_ok_decomp (u : Nat → String) (kt o : String) (event : JVal) (active : Bool)
    (n : Nat) (b : Bundle) (m : Nat) (h : map u kt o event active n = .ok (b, m)) :
    ∃ s n₁ v entries js n₂ ind n₃ r₁ n₄ r₂ n₅ r₃ n₆,
      sightingBuild u kt o event active n = .ok (s, n₁) ∧
      get event ".indicator2" = .ok v ∧
      pyIter (pythonOr v (.arr [])) = .ok entries ∧
      judgementsBuild u kt o event entries n₁ = .ok (js, n₂) ∧
      indicatorBuild u event n₂ = .ok (ind, n₃) ∧
      relationship u (js.map (·.id)) "based-on" [ind.id] n₃ = (r₁, n₄) ∧
      relationship u [s.id] "based-on" (js.map (·.id)) n₄ = (r₂, n₅) ∧
      relationship u [s.id] "sighting-of" [ind.id] n₅ = (r₃, n₆) ∧
      b = ⟨[s], js, [ind], r₁ ++ r₂ ++ r₃⟩ ∧ m = n₆ := by
  simp only [map] at h
  cases hs : sightingBuild u kt o event active n with
  | error e => rw [hs] at h; simp at h
  | ok p =>
    obtain ⟨s, n₁⟩ := p
    rw [hs] at h
    simp only [exbind_ok] at h
    cases hv : get event ".indicator2" with
    | error e => rw [hv] at h; simp at h
    | ok v =>
      rw [hv] at h
      simp only [exbind_ok] at h
      cases he : pyIter (pythonOr v (.arr [])) with
      | error e => rw [he] at h; simp at h
      | ok entries =>
        rw [he] at h
        simp only [exbind_ok] at h
        cases hj : judgementsBuild u kt o event entries n₁ with
        | error e => rw [hj] at h; simp at h
        | ok q =>
          obtain ⟨js, n₂⟩ := q
          rw [hj] at h
          simp only [exbind_ok] at h
          cases hi : indicatorBuild u event n₂ with
          | error e => rw [hi] at h; simp at h
          | ok w =>
            obtain ⟨ind, n₃⟩ := w
            rw [hi] at h
            simp only [exbind_ok] at h
            rcases h₁ : relationship u (js.map (·.id)) "based-on" [ind.id] n₃ with ⟨r₁, n₄⟩
            rcases h₂ : relationship u [s.id] "based-on" (js.map (·.id)) n₄ with ⟨r₂, n₅⟩
            rcases h₃ : relationship u [s.id] "sighting-of" [ind.id] n₅ with ⟨r₃, n₆⟩
            rw [h₁, h₂, h₃] at h
            simp only [Except.ok.injEq, Prod.mk.injEq] at h
            refine ⟨s, n₁, v, entries, js, n₂, ind, n₃, r₁, n₄, r₂, n₅, r₃, n₆,
              ?_, ?_, ?_, ?_, ?_, h₁, h₂, h₃, h.1.symm, h.2.symm⟩ <;>
              first | rfl | assumption

/-! ## Claim C2 — judgements and the disposition mapping -/

/-- The `verdict` value of one `.indicator2` entry (`x.get('verdict')` for a
record, modelled as null otherwise). -/
def verdictOf (x : JVal) : JVal :=
  match x with
  | .obj kvs => (kvs.lookup "verdict").getD .null
  | _ => .null

/-- The claim's disposition table: verdict string → (code, name), with the
default fallback for any other or missing verdict. -/
def specDisposition : JVal → Nat × String
  | .str s =>
    if s = "KNOWN" then (1, "Clean")
    else if s = "UNKNOWN" then (5, "Unknown")
    else if s = "MALICIOUS" then (2, "Malicious")
    else if s = "REMEDIATED" then (2, "Malicious")
    else (5, "Unknown")
  | _ => (5, "Unknown")

/-- The claim's reason: the entry's `threatName` value or the empty string
when absent. -/
def specReason (x : JVal) : JVal :=
  match x with
  | .obj kvs => (kvs.lookup "threatName").getD (.str "")
  | _ => .str ""

/-- An `.indicator2` entry on which `judgement(x)` cannot raise: a keyed
record whose verdict, when present, is not a list or a mapping (Python
rejects those as unhashable dict keys). -/
def entryShape : JVal → Bool
  | .obj kvs =>
    match kvs.lookup "verdict" with
    | some (.arr _) => false
    | some (.obj _) => false
    | _ => true
  | _ => false

theorem dispo_tables (s : String) :
    (pyOrNat (List.lookup s [("KNOWN", 1), ("UNKNOWN", 5), ("MALICIOUS", 2), ("REMEDIATED", 2)]) 5,
     pyOrStr (List.lookup s
        [("KNOWN", "Clean"), ("UNKNOWN", "Unknown"), ("MALICIOUS", "Malicious"),
         ("REMEDIATED", "Malicious")]) "Unknown")
      = specDisposition (.str s) := by
  by_cases h1 : s = "KNOWN"
  · subst h1; decide
  by_cases h2 : s = "UNKNOWN"
  · subst h2; decide
  by_cases h3 : s = "MALICIOUS"
  · subst h3; decide
  by_cases h4 : s = "REMEDIATED"
  · subst h4; decide
  have e1 : (s == "KNOWN") = false := by simp [h1]
  have e2 : (s == "UNKNOWN") = false := by simp [h2]
  have e3 : (s == "MALICIOUS") = false := by simp [h3]
  have e4 : (s == "REMEDIATED") = false := by simp [h4]
  simp [List.lookup, specDisposition, pyOrNat, pyOrStr, e1, e2, e3, e4, h1, h2, h3, h4]

theorem judgementBuild_fields (u : Nat → String) (kt o : String) (event x : JVal)
    (n : Nat) (j : Judgement) (m : Nat)
    (h : judgementBuild u kt o event x n = .ok (j, m)) (hx : entryShape x = true) :
    (j.disposition, j.disposition_name) = specDisposition (verdictOf x) ∧
    j.priority = 90 ∧ j.reason = specReason x := by
  cases x with
  | obj kvs =>
    simp only [judgementBuild, pyDictGet, exbind_ok] at h
    cases hv : (kvs.lookup "verdict").getD .null with
    | arr xs =>
      exfalso
      simp only [entryShape] at hx
      cases hl : kvs.lookup "verdict" with
      | none => rw [hl] at hv; cases hv
      | some w => rw [hl] at hx hv; cases hv; simp at hx
    | obj kvs₂ =>
      exfalso
      simp only [entryShape] at hx
      cases hl : kvs.lookup "verdict" with
      | none => rw [hl] at hv; cases hv
      | some w => rw [hl] at hx hv; cases hv; simp at hx
    | _ =>
      rw [hv] at h
      simp only [hashableGet, exbind_ok] at h
      cases hid : get event ".id" with
      | error e => rw [hid] at h; simp at h
      | ok eid =>
        rw [hid] at h
        simp only [exbind_ok, Except.ok.injEq, Prod.mk.injEq] at h
        obtain ⟨hj, _⟩ := h
        subst hj
        refine ⟨?_, rfl, rfl⟩
        simp only [verdictOf, hv]
        first
        | exact dispo_tables _
        | rfl
  | null => simp [entryShape] at hx
  | bool b₀ => simp [entryShape] at hx
  | num i => simp [entryShape] at hx
  | str s => simp [entryShape] at hx
  | arr xs => simp [entryShape] at hx

theorem judgementsBuild_proj (u : Nat → String) (kt o : String) (event : JVal) :
    ∀ (entries : List JVal) (n : Nat) (js : List Judgement) (m : Nat),
      judgementsBuild u kt o event entries n = .ok (js, m) →
      (∀ x ∈ entries, entryShape x = true) →
      js.map (fun j => (j.disposition, j.disposition_name, j.priority, j.reason))
        = entries.map (fun x =>
            ((specDisposition (verdictOf x)).1, (specDisposition (verdictOf x)).2, 90, specReason x)) := by
  intro entries
  induction entries with
  | nil => intro n js m h _; cases h; rfl
  | cons x xs ih =>
    intro n js m h hall
    simp only [judgementsBuild] at h
    cases hj : judgementBuild u kt o event x n with
    | error e => rw [hj] at h; simp at h
    | ok p =>
      obtain ⟨j, n₁⟩ := p
      rw [hj] at h
      simp only [exbind_ok] at h
      cases hrest : judgementsBuild u kt o event xs n₁ with
      | error e => rw [hrest] at h; simp at h
      | ok q =>
        obtain ⟨js₂, n₂⟩ := q
        rw [hrest] at h
        simp only [exbind_ok, Except.ok.injEq, Prod.mk.injEq] at h
        obtain ⟨hjs, _⟩ := h
        subst hjs
        obtain ⟨hd, hp, hr⟩ :=
          judgementBuild_fields u kt o event x n j n₁ hj (hall x (by simp))
        simp only [List.map_cons]
        rw [ih n₁ js₂ n₂ hrest (fun y hy => hall y (by simp [hy]))]
        have : (j.disposition, j.disposition_name, j.priority, j.reason)
            = ((specDisposition (verdictOf x)).1, (specDisposition (verdictOf x)).2, 90, specReason x) := by
          rw [hp, hr, ← hd]
        rw [this]

/-- Concrete uuid supply used by witnesses and counterexamples. -/
def uNat : Nat → String := fun i => toString i

/-- The counterexample event for claim C2: its `.indicator2` list holds the
non-record entry `7`. -/
def evC2bad : JVal := .obj [("asset", .obj []), ("indicator2", .arr [.num 7])]

/-- Claim C2 is false as stated: on an event whose `.indicator2` list holds
the entry `7`, `map` raises `AttributeError` (from `(7).get('verdict')`)
instead of producing a judgement with the default disposition. -/
theorem claim2_counterexample :
    map uNat "md5" "o" evC2bad true 0 = .error .attributeError := rfl

/-- Claim C2 (amended): for entries that are keyed records whose verdict,
when present, is neither a list nor a mapping, `map` builds exactly one
judgement per entry of the `.indicator2` list (zero when absent or falsy),
with (disposition, disposition_name) given by the documented verdict table
(default `(5, "Unknown")`), priority 90, and reason the entry's
`threatName` or the empty string. -/
theorem claim2_judgements (u : Nat → String) (kt o : String) (event : JVal)
    (active : Bool) (n : Nat) (b : Bundle) (m : Nat) (v : JVal) (entries : List JVal)
    (hm : map u kt o event active n = .ok (b, m))
    (hv : get event ".indicator2" = .ok v)
    (he : pyIter (pythonOr v (.arr [])) = .ok entries)
    (hall : ∀ x ∈ entries, entryShape x = true) :
    b.judgements.length = entries.length ∧
    b.judgements.map (fun j => (j.disposition, j.disposition_name, j.priority, j.reason))
      = entries.map (fun x =>
          ((specDisposition (verdictOf x)).1, (specDisposition (verdictOf x)).2, 90, specReason x)) := by
  obtain ⟨s, n₁, v₂, entries₂, js, n₂, ind, n₃, r₁, n₄, r₂, n₅, r₃, n₆,
    hs, hv₂, he₂, hj, hi, hr₁, hr₂, hr₃, hb, hm₆⟩ :=
    map_ok_decomp u kt o event active n b m hm
  rw [hv] at hv₂
  injection hv₂ with hv₂
  subst hv₂
  rw [he] at he₂
  injection he₂ with he₂
  subst he₂
  subst hb
  have hproj := judgementsBuild_proj u kt o event entries n₁ js n₂ hj hall
  refine ⟨?_, hproj⟩
  have := congrArg List.length hproj
  simpa using this

/-- The witness event for claim C2: two record entries, one `KNOWN` verdict
and one unrecognized `BOGUS` verdict with a threat name. -/
def evC2good : JVal := .obj [("asset", .obj []),
  ("indicator2", .arr [.obj [("verdict", .str "KNOWN")],
                       .obj [("verdict", .str "BOGUS"), ("threatName", .str "T")]])]

/-- Witness for the amended claim C2 at a concrete event. -/
theorem claim2_judgements_witness :
    (map uNat "md5" "o" evC2good true 0).map
      (fun bn => bn.1.judgements.map (fun j => (j.disposition, j.disposition_name, j.priority, j.reason)))
      = .ok [(1, "Clean", 90, JVal.str ""), (5, "Unknown", 90, JVal.str "T")] := by
  obtain ⟨p, hp⟩ : ∃ p, map uNat "md5" "o" evC2good true 0 = .ok p := ⟨_, rfl⟩
  obtain ⟨b, m⟩ := p
  have h := claim2_judgements uNat "md5" "o" evC2good true 0 b m
    (.arr [.obj [("verdict", .str "KNOWN")],
           .obj [("verdict", .str "BOGUS"), ("threatName", .str "T")]])
    [.obj [("verdict", .str "KNOWN")],
     .obj [("verdict", .str "BOGUS"), ("threatName", .str "T")]]
    hp rfl rfl (by intro x hx; simp at hx; rcases hx with h | h <;> subst h <;> rfl)
  rw [hp]
  simp only [Except.map]
  rw [h.2]
  rfl

/-! ## Claim C1 — the relationship cross products -/

theorem flatMap_single {α β : Type} (l : List α) (f : α → β) :
    (l.flatMap fun a => [f a]) = l.map f := by
  induction l <;> simp [*]

theorem relTgts_proj (u : Nat → String) (sid t : String) :
    ∀ (tgts : List String) (n : Nat) (rs : List Relationship) (m : Nat),
      relTgts u sid t tgts n = (rs, m) →
      (rs.map fun r => (r.source_ref, r.relationship_type, r.target_ref))
        = tgts.map (fun g => (sid, t, g)) ∧ m = n + tgts.length := by
  intro tgts
  induction tgts with
  | nil =>
    intro n rs m h
    cases h
    exact ⟨rfl, rfl⟩
  | cons g gs ih =>
    intro n rs m h
    simp only [relTgts] at h
    rcases hr : relTgts u sid t gs (n + 1) with ⟨rest, m₂⟩
    rw [hr] at h
    cases h
    obtain ⟨ih1, ih2⟩ := ih (n + 1) rest m₂ hr
    refine ⟨?_, ?_⟩
    · simp only [List.map_cons, ih1]
    · simp only [List.length_cons]
      omega

theorem relationship_proj (u : Nat → String) (t : String) :
    ∀ (src tgt : List String) (n : Nat) (rs : List Relationship) (m : Nat),
      relationship u src t tgt n = (rs, m) →
      (rs.map fun r => (r.source_ref, r.relationship_type, r.target_ref))
        = src.flatMap (fun s => tgt.map fun g => (s, t, g)) ∧
      m = n + src.length * tgt.length := by
  intro src
  induction src with
  | nil =>
    intro tgt n rs m h
    cases h
    exact ⟨rfl, by simp⟩
  | cons s ss ih =>
    intro tgt n rs m h
    simp only [relationship] at h
    rcases h₁ : relTgts u s t tgt n with ⟨inner, n₁⟩
    rw [h₁] at h
    rcases h₂ : relationship u ss t tgt n₁ with ⟨rest, n₂⟩
    rw [h₂] at h
    cases h
    obtain ⟨ha, hb⟩ := relTgts_proj u s t tgt n inner n₁ h₁
    obtain ⟨hc, hd⟩ := ih tgt n₁ rest n₂ h₂
    refine ⟨?_, ?_⟩
    · simp only [List.flatMap_cons, List.map_append, ha, hc]
    · simp only [hd, hb, List.length_cons]
      ring

/-- Claim C1: whenever `map` succeeds, its relationships are exactly the
concatenation judgement→indicator ("based-on", one per judgement), then
sighting→judgement ("based-on", one per judgement), then the single
sighting→indicator ("sighting-of") edge — `2*J+1` edges in total — and each
edge's `source_ref`/`target_ref` are the `id` fields of the corresponding
entities of the same result. -/
theorem claim1_relationships (u : Nat → String) (kt o : String) (event : JVal)
    (active : Bool) (n : Nat) (b : Bundle) (m : Nat)
    (hm : map u kt o event active n = .ok (b, m)) :
    ∃ s ind, b.sightings = [s] ∧ b.indicators = [ind] ∧
      b.relationships.map (fun r => (r.source_ref, r.relationship_type, r.target_ref))
        = (b.judgements.map fun j => (j.id, "based-on", ind.id)) ++
          (b.judgements.map fun j => (s.id, "based-on", j.id)) ++
          [(s.id, "sighting-of", ind.id)] ∧
      b.relationships.length = 2 * b.judgements.length + 1 := by
  obtain ⟨s, n₁, v, entries, js, n₂, ind, n₃, r₁, n₄, r₂, n₅, r₃, n₆,
    hs, hv, he, hj, hi, hr₁, hr₂, hr₃, hb, hm₆⟩ :=
    map_ok_decomp u kt o event active n b m hm
  subst hb
  have p₁ := relationship_proj u "based-on" (js.map (·.id)) [ind.id] n₃ r₁ n₄ hr₁
  have p₂ := relationship_proj u "based-on" [s.id] (js.map (·.id)) n₄ r₂ n₅ hr₂
  have p₃ := relationship_proj u "sighting-of" [s.id] [ind.id] n₅ r₃ n₆ hr₃
  have q₁ : (r₁.map fun r => (r.source_ref, r.relationship_type, r.target_ref))
      = js.map (fun j => (j.id, "based-on", ind.id)) := by
    rw [p₁.1,
      show ((js.map (·.id)).flatMap fun a => [ind.id].map fun g => (a, "based-on", g))
          = (js.map (·.id)).map (fun a => (a, "based-on", ind.id)) from
        flatMap_single (js.map (·.id)) (fun a => (a, "based-on", ind.id)),
      List.map_map]
    rfl
  have q₂ : (r₂.map fun r => (r.source_ref, r.relationship_type, r.target_ref))
      = js.map (fun j => (s.id, "based-on", j.id)) := by
    rw [p₂.1]
    simp only [List.flatMap_cons, List.flatMap_nil, List.append_nil, List.map_map]
    rfl
  have q₃ : (r₃.map fun r => (r.source_ref, r.relationship_type, r.target_ref))
      = [(s.id, "sighting-of", ind.id)] := by
    rw [p₃.1]
    rfl
  have E : ((r₁ ++ r₂ ++ r₃).map fun r => (r.source_ref, r.relationship_type, r.target_ref))
      = (js.map fun j => (j.id, "based-on", ind.id)) ++
        (js.map fun j => (s.id, "based-on", j.id)) ++
        [(s.id, "sighting-of", ind.id)] := by
    rw [List.map_append, List.map_append, q₁, q₂, q₃]
  refine ⟨s, ind, rfl, rfl, E, ?_⟩
  have hL := congrArg List.length E
  simp only [List.length_append, List.length_map, List.length_cons, List.length_nil] at hL
  show (r₁ ++ r₂ ++ r₃).length = 2 * js.length + 1
  simp only [List.length_append]
  omega

/-- Witness for claim C1 at a concrete event with two judgements: `map`
succeeds and yields 5 = 2*2+1 relationships. -/
theorem claim1_relationships_witness :
    (map uNat "md5" "o" evC2good true 0).map
      (fun bn => (bn.1.relationships.length, bn.1.judgements.length)) = .ok (5, 2) := by
  obtain ⟨p, hp⟩ : ∃ p, map uNat "md5" "o" evC2good true 0 = .ok p := ⟨_, rfl⟩
  obtain ⟨b, m⟩ := p
  obtain ⟨s, ind, _, _, _, hlen⟩ :=
    claim1_relationships uNat "md5" "o" evC2good true 0 b m hp
  have hj : b.judgements.length = 2 := by
    have hq : map uNat "md5" "o" evC2good true 0 = .ok (b, m) := hp
    have hr : (map uNat "md5" "o" evC2good true 0).map (fun bn => bn.1.judgements.length)
        = .ok 2 := rfl
    rw [hq] at hr
    simpa [Except.map] using hr
  rw [hp]
  simp only [Except.map, Except.ok.injEq, Prod.mk.injEq]
  exact ⟨by rw [hlen, hj], hj⟩

/-! ## Claim C10 — transient ids, schema version and source -/

/-- All entity ids of a bundle, in construction order. -/
def Bundle.allIds (b : Bundle) : List String :=
  b.sightings.map (·.id) ++ b.judgements.map (·.id) ++
  b.indicators.map (·.id) ++ b.relationships.map (·.id)

theorem range1_append (a : Nat) : ∀ (s b : Nat),
    List.range' s a ++ List.range' (s + a) b = List.range' s (a + b) := by
  induction a with
  | zero => intro s b; simp
  | succ a ih =>
    intro s b
    rw [List.range'_succ]
    rw [show a + 1 + b = (a + b) + 1 from by omega, List.range'_succ]
    rw [List.cons_append]
    rw [show s + (a + 1) = (s + 1) + a from by omega]
    rw [ih (s + 1) b]

theorem range1_append' (s a b t : Nat) (h : t = s + a) :
    List.range' s a ++ List.range' t b = List.range' s (a + b) := by
  subst h; exact range1_append a s b

theorem sightingBuild_ids (u : Nat → String) (kt o : String) (event : JVal)
    (active : Bool) (n : Nat) (s : Sighting) (n₁ : Nat)
    (h : sightingBuild u kt o event active n = .ok (s, n₁)) :
    s.id = "transient:" ++ u n ∧ n₁ = n + 1 ∧
    s.schema_version = schema ∧ s.source = "Qualys IOC" := by
  simp only [sightingBuild] at h
  cases h₁ : get event ".id" with
  | error e => rw [h₁] at h; simp at h
  | ok eid =>
    rw [h₁] at h
    cases h₂ : get event ".dateTime" with
    | error e => rw [h₂] at h; simp at h
    | ok dt =>
      rw [h₂] at h
      cases h₃ : relations event with
      | error e => rw [h₃] at h; simp at h
      | ok rels =>
        rw [h₃] at h
        cases h₄ : targets event with
        | error e => rw [h₄] at h; simp at h
        | ok tgts =>
          rw [h₄] at h
          cases h₅ : get event ".asset.fullOSName" with
          | error e => rw [h₅] at h; simp at h
          | ok os =>
            rw [h₅] at h
            simp only [exbind_ok, Except.ok.injEq, Prod.mk.injEq] at h
            obtain ⟨hse, hn⟩ := h
            subst hse
            exact ⟨rfl, hn.symm, rfl, rfl⟩

theorem judgementBuild_ids (u : Nat → String) (kt o : String) (event x : JVal)
    (n : Nat) (j : Judgement) (m : Nat)
    (h : judgementBuild u kt o event x n = .ok (j, m)) :
    j.id = "transient:" ++ u n ∧ m = n + 1 ∧
    j.schema_version = schema ∧ j.source = "Qualys IOC" := by
  simp only [judgementBuild] at h
  cases h₁ : pyDictGet x "verdict" .null with
  | error e => rw [h₁] at h; simp at h
  | ok verdict =>
    rw [h₁] at h
    simp only [exbind_ok] at h
    cases h₂ : hashableGet [("KNOWN", 1), ("UNKNOWN", 5), ("MALICIOUS", 2), ("REMEDIATED", 2)] verdict with
    | error e => rw [h₂] at h; simp at h
    | ok dcode =>
      rw [h₂] at h
      simp only [exbind_ok] at h
      cases h₃ : hashableGet
          [("KNOWN", "Clean"), ("UNKNOWN", "Unknown"), ("MALICIOUS", "Malicious"),
           ("REMEDIATED", "Malicious")] verdict with
      | error e => rw [h₃] at h; simp at h
      | ok dname =>
        rw [h₃] at h
        simp only [exbind_ok] at h
        cases h₄ : get event ".id" with
        | error e => rw [h₄] at h; simp at h
        | ok eid =>
          rw [h₄] at h
          cases h₅ : pyDictGet x "threatName" (.str "") with
          | error e => rw [h₅] at h; simp at h
          | ok reason =>
            rw [h₅] at h
            simp only [exbind_ok, Except.ok.injEq, Prod.mk.injEq] at h
            obtain ⟨hj, hn⟩ := h
            subst hj
            exact ⟨rfl, hn.symm, rfl, rfl⟩

theorem judgementsBuild_ids (u : Nat → String) (kt o : String) (event : JVal) :
    ∀ (entries : List JVal) (n : Nat) (js : List Judgement) (m : Nat),
      judgementsBuild u kt o event entries n = .ok (js, m) →
      js.map (·.id) = (List.range' n js.length).map (fun i => "transient:" ++ u i) ∧
      m = n + js.length ∧
      ∀ j ∈ js, j.schema_version = schema ∧ j.source = "Qualys IOC" := by
  intro entries
  induction entries with
  | nil =>
    intro n js m h
    cases h
    exact ⟨rfl, rfl, by simp⟩
  | cons x xs ih =>
    intro n js m h
    simp only [judgementsBuild] at h
    cases hj : judgementBuild u kt o event x n with
    | error e => rw [hj] at h; simp at h
    | ok p =>
      obtain ⟨j, n₁⟩ := p
      rw [hj] at h
      simp only [exbind_ok] at h
      cases hrest : judgementsBuild u kt o event xs n₁ with
      | error e => rw [hrest] at h; simp at h
      | ok q =>
        obtain ⟨js₂, n₂⟩ := q
        rw [hrest] at h
        simp only [exbind_ok, Except.ok.injEq, Prod.mk.injEq] at h
        obtain ⟨hjs, hm⟩ := h
        subst hjs
        obtain ⟨hid, hn₁, hsch, hsrc⟩ := judgementBuild_ids u kt o event x n j n₁ hj
        obtain ⟨ihid, ihm, ihf⟩ := ih n₁ js₂ n₂ hrest
        subst hn₁
        refine ⟨?_, by simp only [List.length_cons]; omega, ?_⟩
        · simp only [List.map_cons, List.length_cons, List.range'_succ, hid, ihid]
        · intro j₂ hj₂
          rcases List.mem_cons.mp hj₂ with h | h
          · subst h; exact ⟨hsch, hsrc⟩
          · exact ihf j₂ h

theorem indicatorBuild_ids (u : Nat → String) (event : JVal) (n : Nat)
    (ind : Indicator) (m : Nat) (h : indicatorBuild u event n = .ok (ind, m)) :
    ind.id = "transient:" ++ u n ∧ m = n + 1 ∧
    ind.schema_version = schema ∧ ind.source = "Qualys IOC" := by
  simp only [indicatorBuild] at h
  cases h₁ : get event ".id" with
  | error e => rw [h₁] at h; simp at h
  | ok eid =>
    rw [h₁] at h
    simp only [exbind_ok, Except.ok.injEq, Prod.mk.injEq] at h
    obtain ⟨hi, hn⟩ := h
    subst hi
    exact ⟨rfl, hn.symm, rfl, rfl⟩

theorem relTgts_ids (u : Nat → String) (sid t : String) :
    ∀ (tgts : List String) (n : Nat) (rs : List Relationship) (m : Nat),
      relTgts u sid t tgts n = (rs, m) →
      rs.map (·.id) = (List.range' n tgts.length).map (fun i => "transient:" ++ u i) ∧
      m = n + tgts.length ∧
      ∀ r ∈ rs, r.schema_version = schema ∧ r.source = "Qualys IOC" := by
  intro tgts
  induction tgts with
  | nil =>
    intro n rs m h
    cases h
    exact ⟨rfl, rfl, by simp⟩
  | cons g gs ih =>
    intro n rs m h
    simp only [relTgts] at h
    rcases hr : relTgts u sid t gs (n + 1) with ⟨rest, m₂⟩
    rw [hr] at h
    cases h
    obtain ⟨ihid, ihm, ihf⟩ := ih (n + 1) rest m₂ hr
    refine ⟨?_, by simp only [List.length_cons]; omega, ?_⟩
    · simp only [List.map_cons, List.length_cons, List.range'_succ, ihid]
    · intro r hr₂
      rcases List.mem_cons.mp hr₂ with h | h
      · subst h; exact ⟨rfl, rfl⟩
      · exact ihf r h

theorem relationship_ids (u : Nat → String) (t : String) :
    ∀ (src tgt : List String) (n : Nat) (rs : List Relationship) (m : Nat),
      relationship u src t tgt n = (rs, m) →
      rs.map (·.id) = (List.range' n (src.length * tgt.length)).map (fun i => "transient:" ++ u i) ∧
      m = n + src.length * tgt.length ∧
      ∀ r ∈ rs, r.schema_version = schema ∧ r.source = "Qualys IOC" := by
  intro src
  induction src with
  | nil =>
    intro tgt n rs m h
    cases h
    exact ⟨by simp, by simp, by simp⟩
  | cons s ss ih =>
    intro tgt n rs m h
    simp only [relationship] at h
    rcases h₁ : relTgts u s t tgt n with ⟨inner, n₁⟩
    rw [h₁] at h
    rcases h₂ : relationship u ss t tgt n₁ with ⟨rest, n₂⟩
    rw [h₂] at h
    cases h
    obtain ⟨aid, am, af⟩ := relTgts_ids u s t tgt n inner n₁ h₁
    obtain ⟨bid, bm, bf⟩ := ih tgt n₁ rest n₂ h₂
    refine ⟨?_, ?_, ?_⟩
    · rw [List.map_append, aid, bid, ← List.map_append,
        range1_append' n tgt.length (ss.length * tgt.length) n₁ am]
      congr 2
      simp only [List.length_cons]
      ring
    · rw [bm, am, List.length_cons]
      ring
    · intro r hr
      rcases List.mem_append.mp hr with h | h
      · exact af r h
      · exact bf r h

theorem ranges_concat (n J : Nat) :
    List.range' n 1 ++ List.range' (n + 1) J ++ List.range' (n + 1 + J) 1 ++
      (List.range' (n + 1 + J + 1) J ++ List.range' (n + 1 + J + 1 + J) J ++
       List.range' (n + 1 + J + 1 + J + J) 1)
    = List.range' n (3 * J + 3) := by
  rw [range1_append' n 1 J (n + 1) rfl]
  rw [range1_append' n (1 + J) 1 (n + 1 + J) (by omega)]
  rw [range1_append' (n + 1 + J + 1) J J (n + 1 + J + 1 + J) rfl]
  rw [range1_append' (n + 1 + J + 1) (J + J) 1 (n + 1 + J + 1 + J + J) (by omega)]
  rw [range1_append' n (1 + J + 1) (J + J + 1) (n + 1 + J + 1) (by omega)]
  congr 1
  omega

theorem map_allIds (u : Nat → String) (kt o : String) (event : JVal) (active : Bool)
    (n : Nat) (b : Bundle) (m : Nat) (hm : map u kt o event active n = .ok (b, m)) :
    m = n + (3 * b.judgements.length + 3) ∧
    b.allIds = (List.range' n (3 * b.judgements.length + 3)).map (fun i => "transient:" ++ u i) ∧
    (∀ s ∈ b.sightings, s.schema_version = schema ∧ s.source = "Qualys IOC") ∧
    (∀ j ∈ b.judgements, j.schema_version = schema ∧ j.source = "Qualys IOC") ∧
    (∀ i ∈ b.indicators, i.schema_version = schema ∧ i.source = "Qualys IOC") ∧
    (∀ r ∈ b.relationships, r.schema_version = schema ∧ r.source = "Qualys IOC") := by
  obtain ⟨s, n₁, v, entries, js, n₂, ind, n₃, r₁, n₄, r₂, n₅, r₃, n₆,
    hs, hv, he, hj, hi, hr₁, hr₂, hr₃, hb, hm₆⟩ := map_ok_decomp u kt o event active n b m hm
  obtain ⟨sid, sn, ssch, ssrc⟩ := sightingBuild_ids u kt o event active n s n₁ hs
  obtain ⟨jid, jn, jf⟩ := judgementsBuild_ids u kt o event entries n₁ js n₂ hj
  obtain ⟨iid, in₃, isch, isrc⟩ := indicatorBuild_ids u event n₂ ind n₃ hi
  obtain ⟨aid, an, af⟩ := relationship_ids u "based-on" (js.map (·.id)) [ind.id] n₃ r₁ n₄ hr₁
  obtain ⟨bid, bn, bf⟩ := relationship_ids u "based-on" [s.id] (js.map (·.id)) n₄ r₂ n₅ hr₂
  obtain ⟨cid, cn, cf⟩ := relationship_ids u "sighting-of" [s.id] [ind.id] n₅ r₃ n₆ hr₃
  simp only [List.length_map, List.length_cons, List.length_nil, Nat.mul_one, Nat.one_mul,
    Nat.zero_add] at aid an bid bn cid cn
  have hJ : b.judgements = js := by rw [hb]
  subst hm₆
  subst sn
  subst jn
  subst in₃
  subst an
  subst bn
  subst cn
  refine ⟨?_, ?_, ?_, ?_, ?_, ?_⟩
  · rw [hJ]
    omega
  · have e₀ : [s.id] = (List.range' n 1).map (fun i => "transient:" ++ u i) := by
      rw [sid]; rfl
    have e₁ : [ind.id]
        = (List.range' (n + 1 + js.length) 1).map (fun i => "transient:" ++ u i) := by
      rw [iid]; rfl
    rw [hJ, hb]
    show [s.id] ++ js.map (·.id) ++ [ind.id] ++ ((r₁ ++ r₂ ++ r₃).map (·.id))
        = (List.range' n (3 * js.length + 3)).map (fun i => "transient:" ++ u i)
    rw [e₀, jid, e₁, List.map_append, List.map_append, aid, bid, cid]
    rw [← List.map_append, ← List.map_append, ← List.map_append, ← List.map_append,
      ← List.map_append]
    rw [ranges_concat]
  · intro x hx
    rw [hb] at hx
    rcases List.mem_singleton.mp hx with rfl
    exact ⟨ssch, ssrc⟩
  · intro x hx
    rw [hJ] at hx
    exact jf x hx
  · intro x hx
    rw [hb] at hx
    rcases List.mem_singleton.mp hx with rfl
    exact ⟨isch, isrc⟩
  · intro x hx
    rw [hb] at hx
    simp only [List.mem_append] at hx
    rcases hx with (h | h) | h
    · exact af x h
    · exact bf x h
    · exact cf x h

/-- Claim C10: every entity constructed by one successful `map` run carries
an id of the form `transient:<uuid>` drawn from the fresh uuid supply, all
ids within the result are pairwise distinct (given a collision-free supply),
and every entity carries `schema_version = "1.0.16"` and
`source = "Qualys IOC"`. -/
theorem claim10_transient_ids (u : Nat → String) (kt o : String) (event : JVal)
    (active : Bool) (n : Nat) (b : Bundle) (m : Nat)
    (hu : Function.Injective u) (hm : map u kt o event active n = .ok (b, m)) :
    b.allIds.Nodup ∧
    (∀ x ∈ b.allIds, ∃ i, n ≤ i ∧ i < m ∧ x = "transient:" ++ u i) ∧
    (∀ s ∈ b.sightings, s.schema_version = "1.0.16" ∧ s.source = "Qualys IOC") ∧
    (∀ j ∈ b.judgements, j.schema_version = "1.0.16" ∧ j.source = "Qualys IOC") ∧
    (∀ i ∈ b.indicators, i.schema_version = "1.0.16" ∧ i.source = "Qualys IOC") ∧
    (∀ r ∈ b.relationships, r.schema_version = "1.0.16" ∧ r.source = "Qualys IOC") := by
  obtain ⟨hmn, hA, h₃, h₄, h₅, h₆⟩ := map_allIds u kt o event active n b m hm
  have hinj : Function.Injective (fun i => "transient:" ++ u i) := by
    intro a b hab
    apply hu
    have hd := congrArg String.data hab
    simp only [String.data_append] at hd
    have h₂ := List.append_cancel_left hd
    cases hua : u a with
    | mk da =>
      cases hub : u b with
      | mk db =>
        rw [hua, hub] at h₂
        exact congrArg String.mk h₂
  refine ⟨?_, ?_, h₃, h₄, h₅, h₆⟩
  · rw [hA]
    exact List.Nodup.map hinj (List.nodup_range' ..)
  · intro x hx
    rw [hA] at hx
    obtain ⟨i, hi, rfl⟩ := List.mem_map.mp hx
    have := List.mem_range'_1.mp hi
    exact ⟨i, this.1, by omega, rfl⟩

/-- A uuid supply that is literally collision-free. -/
def uRep : Nat → String := fun i => String.mk (List.replicate i 'a')

theorem uRep_inj : Function.Injective uRep := by
  intro a b h
  have := congrArg (fun s => s.data.length) h
  simpa [uRep] using this

/-- Witness for claim C10: on a concrete event yielding two judgements, all
nine entity ids are pairwise distinct. -/
theorem claim10_transient_ids_witness :
    (map uRep "md5" "o" evC2good true 0).map (fun bn => decide bn.1.allIds.Nodup)
      = .ok true := by
  obtain ⟨p, hp⟩ : ∃ p, map uRep "md5" "o" evC2good true 0 = .ok p := ⟨_, rfl⟩
  obtain ⟨b, m⟩ := p
  obtain ⟨hnd, _, _, _, _, _⟩ :=
    claim10_transient_ids uRep "md5" "o" evC2good true 0 b m uRep_inj hp
  rw [hp]
  simp only [Except.map, Except.ok.injEq]
  exact decide_eq_true hnd

/-! ## Claim C4 — the 401 retry and status propagation

`raise_for_status` raises only for statuses in [400, 600), so a non-2xx
status below 400 (for example 304) is returned without error, refuting the
claim's "any other non-2xx status is propagated".  The retry logic itself is
as claimed: exactly one retry, with fresh credentials, only on 401. -/

/-- A transport answering 304 (non-2xx, non-error) with a list body. -/
def http304 : Transport := fun _ _ => ⟨304, .arr []⟩

/-- Claim C4 is false as stated: a 304 first response is not a 2xx status,
yet `fetch` returns its body without propagating any failure (and without
retrying). -/
theorem claim4_counterexample :
    fetch http304 "A" "f" true
      = (.ok (.arr []), [("A/ioc/events?state=true&filter=f", false)]) ∧ ¬(304 < 300) :=
  ⟨rfl, by decide⟩

/-- Claim C4 (amended): a 401 first response triggers exactly one retry with
fresh credential headers and nothing else does; the body of the final
response is returned without error when its status is outside [400, 600),
and a final status in [400, 600) — including a second 401 — is propagated
as an `HTTPError` transport failure (never as a recovered `AuthError`); a
phase-1 fetch failure is propagated unchanged by `observe`. -/
theorem claim4_auth_retry :
    (∀ (http : Transport) (api filt : String) (active_ : Bool),
      (fetch http api filt active_).2
        = if (http (qualysURL api filt active_) false).status = 401 then
            [(qualysURL api filt active_, false), (qualysURL api filt active_, true)]
          else [(qualysURL api filt active_, false)]) ∧
    (∀ (http : Transport) (api filt : String) (active_ : Bool) (r : Response),
      (if (http (qualysURL api filt active_) false).status = 401 then
         http (qualysURL api filt active_) true
       else http (qualysURL api filt active_) false) = r →
      ((r.status < 400 ∨ 600 ≤ r.status) → (fetch http api filt active_).1 = .ok r.body) ∧
      (400 ≤ r.status → r.status < 600 →
        (fetch http api filt active_).1 = .error (.httpError r.status))) ∧
    (∀ (http : Transport) (u : Nat → String) (kind : Kind) (api obs : String)
       (n : Nat) (e : PyErr),
      (fetch http api (kind.filter obs) true).1 = .error e →
      (observe u http kind api obs n).1 = .error e) := by
  refine ⟨?_, ?_, ?_⟩
  · intro http api filt active_
    by_cases h : (http (qualysURL api filt active_) false).status = 401 <;>
      simp [fetch, h, apply_ite Prod.snd, ite_self]
  · intro http api filt active_ r hr
    by_cases h : (http (qualysURL api filt active_) false).status = 401
    · rw [if_pos h] at hr
      refine ⟨fun hs => ?_, fun h4 h6 => ?_⟩
      · have hc : ¬(400 ≤ r.status ∧ r.status < 600) := by omega
        simp [fetch, h, hr, hc]
      · have hc : 400 ≤ r.status ∧ r.status < 600 := ⟨h4, h6⟩
        simp [fetch, h, hr, hc]
    · rw [if_neg h] at hr
      have h' : ¬(r.status = 401) := by rw [← hr]; exact h
      refine ⟨fun hs => ?_, fun h4 h6 => ?_⟩
      · have hc : ¬(400 ≤ r.status ∧ r.status < 600) := by omega
        simp [fetch, hr, h', hc]
      · have hc : 400 ≤ r.status ∧ r.status < 600 := ⟨h4, h6⟩
        simp [fetch, hr, h', hc]
  · intro http u kind api obs n e hf
    simp only [observe]
    rcases hfp : fetch http api (kind.filter obs) true with ⟨r₁, t₁⟩
    rw [hfp] at hf
    simp only at hf
    rw [hf]

/-- A transport answering 401 on the original credentials and 200 with a
list body on the fresh-credential retry. -/
def http401then200 : Transport := fun _ fresh =>
  if fresh then ⟨200, .arr []⟩ else ⟨401, .null⟩

/-- A transport answering 401 regardless of credentials. -/
def http401always : Transport := fun _ _ => ⟨401, .null⟩

/-- Witness for the amended claim C4: with a 401-then-200 transport, `fetch`
issues exactly one fresh-credential retry and returns the retried body
without error; with a transport that answers 401 twice, `observe` surfaces
the `HTTPError` transport failure. -/
theorem claim4_auth_retry_witness :
    (fetch http401then200 "A" "f" true).2
      = [("A/ioc/events?state=true&filter=f", false),
         ("A/ioc/events?state=true&filter=f", true)] ∧
    (fetch http401then200 "A" "f" true).1 = .ok (.arr []) ∧
    (observe uNat http401always .md5 "A" "o" 0).1 = .error (.httpError 401) := by
  refine ⟨?_, ?_, ?_⟩
  · exact (claim4_auth_retry.1 http401then200 "A" "f" true).trans (by decide)
  · exact (claim4_auth_retry.2.1 http401then200 "A" "f" true ⟨200, .arr []⟩ rfl).1
      (by left; decide)
  · exact claim4_auth_retry.2.2 http401always uNat .md5 "A" "o" 0 (.httpError 401) rfl

/-! ## The merge machinery (shared by claims C7 and C3) -/

/-- The list of bundles produced by mapping the events of one phase in order
(spec-side restatement of the loop body of `observe`). -/
def mapList (u : Nat → String) (kt o : String) (active : Bool) :
    List JVal → Nat → Except PyErr (List Bundle × Nat)
  | [], n => .ok ([], n)
  | e :: es, n => do
    let (bundle, n₁) ← map u kt o e active n
    let (bs, n₂) ← mapList u kt o active es n₁
    .ok (bundle :: bs, n₂)

/-- One merge step over a four-key accumulator updates each key in place. -/
theorem mergeBundle_four (A B C D : List Entity) (b : Bundle) :
    mergeBundle [("sightings", A), ("judgements", B), ("indicators", C), ("relationships", D)]
        b.items
      = [("sightings", A ++ b.sightings.map .sighting),
         ("judgements", B ++ b.judgements.map .judgement),
         ("indicators", C ++ b.indicators.map .indicator),
         ("relationships", D ++ b.relationships.map .relationship)] := rfl

/-- One merge step over the empty accumulator inserts the four keys in
bundle-item order. -/
theorem mergeBundle_empty (b : Bundle) :
    mergeBundle [] b.items
      = [("sightings", b.sightings.map .sighting),
         ("judgements", b.judgements.map .judgement),
         ("indicators", b.indicators.map .indicator),
         ("relationships", b.relationships.map .relationship)] := rfl

/-- The four-key dict holding the per-entity-type concatenations of a bundle
list, in encounter order. -/
def concatDict (bs : List Bundle) : ObservedMap :=
  [("sightings", (bs.map fun b => b.sightings.map Entity.sighting).flatten),
   ("judgements", (bs.map fun b => b.judgements.map Entity.judgement).flatten),
   ("indicators", (bs.map fun b => b.indicators.map Entity.indicator).flatten),
   ("relationships", (bs.map fun b => b.relationships.map Entity.relationship).flatten)]

theorem fold_four (bs : List Bundle) : ∀ A B C D : List Entity,
    bs.foldl (fun ob b => mergeBundle ob b.items)
        [("sightings", A), ("judgements", B), ("indicators", C), ("relationships", D)]
      = [("sightings", A ++ (bs.map fun b => b.sightings.map Entity.sighting).flatten),
         ("judgements", B ++ (bs.map fun b => b.judgements.map Entity.judgement).flatten),
         ("indicators", C ++ (bs.map fun b => b.indicators.map Entity.indicator).flatten),
         ("relationships", D ++ (bs.map fun b => b.relationships.map Entity.relationship).flatten)] := by
  induction bs with
  | nil => intro A B C D; simp
  | cons b rest ih =>
    intro A B C D
    rw [List.foldl_cons, mergeBundle_four, ih]
    simp [List.append_assoc]

theorem fold_from_nil (bs : List Bundle) (hne : bs ≠ []) :
    bs.foldl (fun ob b => mergeBundle ob b.items) [] = concatDict bs := by
  cases bs with
  | nil => exact absurd rfl hne
  | cons b rest =>
    rw [List.foldl_cons, mergeBundle_empty, fold_four, concatDict]
    simp

theorem mapEvents_from_mapList (u : Nat → String) (kt o : String) (active : Bool) :
    ∀ (evs : List JVal) (observed : ObservedMap) (n : Nat) (bs : List Bundle) (m : Nat),
      mapList u kt o active evs n = .ok (bs, m) →
      mapEvents u kt o active evs observed n
        = .ok (bs.foldl (fun ob b => mergeBundle ob b.items) observed, m) := by
  intro evs
  induction evs with
  | nil =>
    intro observed n bs m h
    cases h
    rfl
  | cons e es ih =>
    intro observed n bs m h
    simp only [mapList] at h
    cases hm : map u kt o e active n with
    | error err => rw [hm] at h; simp at h
    | ok p =>
      obtain ⟨bundle, n₁⟩ := p
      rw [hm] at h
      simp only [exbind_ok] at h
      cases hrest : mapList u kt o active es n₁ with
      | error err => rw [hrest] at h; simp at h
      | ok q =>
        obtain ⟨bs₂, n₂⟩ := q
        rw [hrest] at h
        simp only [exbind_ok, Except.ok.injEq, Prod.mk.injEq] at h
        obtain ⟨hbs, hm₂⟩ := h
        subst hbs
        subst hm₂
        simp only [mapEvents, hm, exbind_ok]
        rw [ih (mergeBundle observed bundle.items) n₁ bs₂ n₂ hrest]
        rfl

theorem mapEvents_ok_decomp (u : Nat → String) (kt o : String) (active : Bool) :
    ∀ (evs : List JVal) (observed : ObservedMap) (n : Nat) (d : ObservedMap) (m : Nat),
      mapEvents u kt o active evs observed n = .ok (d, m) →
      ∃ bs, mapList u kt o active evs n = .ok (bs, m) ∧
        d = bs.foldl (fun ob b => mergeBundle ob b.items) observed := by
  intro evs
  induction evs with
  | nil =>
    intro observed n d m h
    cases h
    exact ⟨[], rfl, rfl⟩
  | cons e es ih =>
    intro observed n d m h
    simp only [mapEvents] at h
    cases hm : map u kt o e active n with
    | error err => rw [hm] at h; simp at h
    | ok p =>
      obtain ⟨bundle, n₁⟩ := p
      rw [hm] at h
      simp only [exbind_ok] at h
      obtain ⟨bs₂, hbs₂, hd⟩ := ih (mergeBundle observed bundle.items) n₁ d m h
      refine ⟨bundle :: bs₂, ?_, ?_⟩
      · simp only [mapList, hm, exbind_ok, hbs₂]
      · rw [hd]
        rfl

theorem mapList_length (u : Nat → String) (kt o : String) (active : Bool) :
    ∀ (evs : List JVal) (n : Nat) (bs : List Bundle) (m : Nat),
      mapList u kt o active evs n = .ok (bs, m) → bs.length = evs.length := by
  intro evs
  induction evs with
  | nil =>
    intro n bs m h
    cases h
    rfl
  | cons e es ih =>
    intro n bs m h
    simp only [mapList] at h
    cases hm : map u kt o e active n with
    | error err => rw [hm] at h; simp at h
    | ok p =>
      obtain ⟨bundle, n₁⟩ := p
      rw [hm] at h
      simp only [exbind_ok] at h
      cases hrest : mapList u kt o active es n₁ with
      | error err => rw [hrest] at h; simp at h
      | ok q =>
        obtain ⟨bs₂, n₂⟩ := q
        rw [hrest] at h
        simp only [exbind_ok, Except.ok.injEq, Prod.mk.injEq] at h
        obtain ⟨hbs, _⟩ := h
        subst hbs
        simp only [List.length_cons, ih n₁ bs₂ n₂ hrest]

theorem observe_ok_decomp (u : Nat → String) (http : Transport) (kind : Kind)
    (api obs : String) (n : Nat) (d : ObservedMap)
    (h : (observe u http kind api obs n).1 = .ok d) :
    ∃ body₁ evs₁ ob₁ n₁ body₂ evs₂ n₂,
      (fetch http api (kind.filter obs) true).1 = .ok body₁ ∧
      pyIter body₁ = .ok evs₁ ∧
      mapEvents u kind.type obs true evs₁ [] n = .ok (ob₁, n₁) ∧
      (fetch http api (kind.filter obs) false).1 = .ok body₂ ∧
      pyIter body₂ = .ok evs₂ ∧
      mapEvents u kind.type obs false evs₂ ob₁ n₁ = .ok (d, n₂) := by
  simp only [observe] at h
  rcases hf₁ : fetch http api (kind.filter obs) true with ⟨r₁, t₁⟩
  rw [hf₁] at h
  cases r₁ with
  | error e => simp at h
  | ok body₁ =>
    simp only at h
    cases hi₁ : pyIter body₁ with
    | error e => rw [hi₁] at h; simp at h
    | ok evs₁ =>
      rw [hi₁] at h
      simp only at h
      cases hme₁ : mapEvents u kind.type obs true evs₁ [] n with
      | error e => rw [hme₁] at h; simp at h
      | ok p =>
        obtain ⟨ob₁, n₁⟩ := p
        rw [hme₁] at h
        simp only at h
        rcases hf₂ : fetch http api (kind.filter obs) false with ⟨r₂, t₂⟩
        rw [hf₂] at h
        cases r₂ with
        | error e => simp at h
        | ok body₂ =>
          simp only at h
          cases hi₂ : pyIter body₂ with
          | error e => rw [hi₂] at h; simp at h
          | ok evs₂ =>
            rw [hi₂] at h
            simp only at h
            cases hme₂ : mapEvents u kind.type obs false evs₂ ob₁ n₁ with
            | error e => rw [hme₂] at h; simp at h
            | ok q =>
              obtain ⟨ob₂, n₂⟩ := q
              rw [hme₂] at h
              simp only [Except.ok.injEq] at h
              subst h
              exact ⟨body₁, evs₁, ob₁, n₁, body₂, evs₂, n₂,
                rfl, hi₁, hme₁, rfl, hi₂, hme₂⟩

/-! ## Claim C7 — the shape of a successful `observe` result

With zero events across both phases, the merge loop never runs and the
returned dict is empty — not a four-key mapping.  With at least one event,
the key set is exactly the four entity-type names. -/

/-- A transport answering 200 with an empty event list everywhere. -/
def http200empty : Transport := fun _ _ => ⟨200, .arr []⟩

/-- Claim C7 is false as stated: both phases succeed with empty event lists
and `observe` returns the empty mapping, whose key set is not the four
entity-type names. -/
theorem claim7_counterexample :
    (observe uNat http200empty .md5 "A" "o" 0).1 = .ok [] ∧
    ¬ (([] : ObservedMap).map Prod.fst
        = ["sightings", "judgements", "indicators", "relationships"]) :=
  ⟨rfl, by decide⟩

/-- Claim C7 (amended): when both phase fetches succeed, `observe` returns a
mapping whose key set is either exactly
{sightings, judgements, indicators, relationships} (in insertion order) or
empty, the latter exactly when both phases returned zero events. -/
theorem claim7_result_keys :
    (∀ (u : Nat → String) (http : Transport) (kind : Kind) (api obs : String)
       (n : Nat) (d : ObservedMap),
      (observe u http kind api obs n).1 = .ok d →
      d.map Prod.fst = [] ∨
        d.map Prod.fst = ["sightings", "judgements", "indicators", "relationships"]) ∧
    (∀ (u : Nat → String) (http : Transport) (kind : Kind) (api obs : String)
       (n : Nat) (d : ObservedMap) (body₁ : JVal) (evs₁ : List JVal)
       (body₂ : JVal) (evs₂ : List JVal),
      (observe u http kind api obs n).1 = .ok d →
      (fetch http api (kind.filter obs) true).1 = .ok body₁ → pyIter body₁ = .ok evs₁ →
      (fetch http api (kind.filter obs) false).1 = .ok body₂ → pyIter body₂ = .ok evs₂ →
      (d = [] ↔ evs₁ = [] ∧ evs₂ = [])) := by
  constructor
  · intro u http kind api obs n d hobs
    obtain ⟨body₁, evs₁, ob₁, n₁, body₂, evs₂, n₂, hf₁, hi₁, hme₁, hf₂, hi₂, hme₂⟩ :=
      observe_ok_decomp u http kind api obs n d hobs
    obtain ⟨bs₁, hbs₁, hob₁⟩ := mapEvents_ok_decomp u kind.type obs true evs₁ [] n ob₁ n₁ hme₁
    obtain ⟨bs₂, hbs₂, hd⟩ := mapEvents_ok_decomp u kind.type obs false evs₂ ob₁ n₁ d n₂ hme₂
    have hdd : d = (bs₁ ++ bs₂).foldl (fun ob b => mergeBundle ob b.items) [] := by
      rw [List.foldl_append, ← hob₁]
      exact hd
    by_cases hne : bs₁ ++ bs₂ = []
    · left
      rw [hdd, hne]
      rfl
    · right
      rw [hdd, fold_from_nil _ hne]
      rfl
  · intro u http kind api obs n d body₁ evs₁ body₂ evs₂ hobs hfb₁ hib₁ hfb₂ hib₂
    obtain ⟨b₁, e₁, ob₁, n₁, b₂, e₂, n₂, hf₁, hi₁, hme₁, hf₂, hi₂, hme₂⟩ :=
      observe_ok_decomp u http kind api obs n d hobs
    rw [hfb₁] at hf₁
    injection hf₁ with hb₁
    subst hb₁
    rw [hib₁] at hi₁
    injection hi₁ with he₁
    subst he₁
    rw [hfb₂] at hf₂
    injection hf₂ with hb₂
    subst hb₂
    rw [hib₂] at hi₂
    injection hi₂ with he₂
    subst he₂
    obtain ⟨bs₁, hbs₁, hob₁⟩ := mapEvents_ok_decomp u kind.type obs true evs₁ [] n ob₁ n₁ hme₁
    obtain ⟨bs₂, hbs₂, hd⟩ := mapEvents_ok_decomp u kind.type obs false evs₂ ob₁ n₁ d n₂ hme₂
    have hdd : d = (bs₁ ++ bs₂).foldl (fun ob b => mergeBundle ob b.items) [] := by
      rw [List.foldl_append, ← hob₁]
      exact hd
    have hl₁ := mapList_length u kind.type obs true evs₁ n bs₁ n₁ hbs₁
    have hl₂ := mapList_length u kind.type obs false evs₂ n₁ bs₂ n₂ hbs₂
    constructor
    · intro hdnil
      by_cases hne : bs₁ ++ bs₂ = []
      · obtain ⟨hb1, hb2⟩ := List.append_eq_nil.mp hne
        subst hb1
        subst hb2
        simp only [List.length_nil] at hl₁ hl₂
        exact ⟨List.eq_nil_of_length_eq_zero hl₁.symm,
               List.eq_nil_of_length_eq_zero hl₂.symm⟩
      · exfalso
        rw [fold_from_nil _ hne] at hdd
        rw [hdnil] at hdd
        simp [concatDict] at hdd
    · rintro ⟨he₁, he₂⟩
      subst he₁
      subst he₂
      have hb1 : bs₁ = [] := List.eq_nil_of_length_eq_zero (by simpa using hl₁)
      have hb2 : bs₂ = [] := List.eq_nil_of_length_eq_zero (by simpa using hl₂)
      rw [hdd, hb1, hb2]
      rfl

/-- A transport answering 200 with one minimal event everywhere. -/
def http200one : Transport := fun _ _ => ⟨200, .arr [.obj [("asset", .obj [])]]⟩

/-- Witness for the amended claim C7: with events present, the key list of
the `observe` result is exactly the four entity-type names. -/
theorem claim7_result_keys_witness :
    Except.map (List.map Prod.fst) (observe uNat http200one .md5 "A" "o" 0).1
      = .ok ["sightings", "judgements", "indicators", "relationships"] := by
  obtain ⟨d, hd⟩ : ∃ d, (observe uNat http200one .md5 "A" "o" 0).1 = .ok d := ⟨_, rfl⟩
  rcases claim7_result_keys.1 uNat http200one .md5 "A" "o" 0 d hd with h | h
  · have htrue : Except.map (List.map Prod.fst) (observe uNat http200one .md5 "A" "o" 0).1
        = .ok ["sightings", "judgements", "indicators", "relationships"] := rfl
    rw [hd] at htrue
    simp only [Except.map, Except.ok.injEq] at htrue
    rw [h] at htrue
    simp at htrue
  · rw [hd]
    simp only [Except.map, h]

/-! ## Claim C3 — two-phase fetch, phase flags and merge order -/

theorem sightingBuild_rows (u : Nat → String) (kt o : String) (event : JVal)
    (active : Bool) (n : Nat) (s : Sighting) (n₁ : Nat)
    (h : sightingBuild u kt o event active n = .ok (s, n₁)) :
    s.data.rows = [[pyStrBool active]] := by
  simp only [sightingBuild] at h
  cases h₁ : get event ".id" with
  | error e => rw [h₁] at h; simp at h
  | ok eid =>
    rw [h₁] at h
    cases h₂ : get event ".dateTime" with
    | error e => rw [h₂] at h; simp at h
    | ok dt =>
      rw [h₂] at h
      cases h₃ : relations event with
      | error e => rw [h₃] at h; simp at h
      | ok rels =>
        rw [h₃] at h
        cases h₄ : targets event with
        | error e => rw [h₄] at h; simp at h
        | ok tgts =>
          rw [h₄] at h
          cases h₅ : get event ".asset.fullOSName" with
          | error e => rw [h₅] at h; simp at h
          | ok os =>
            rw [h₅] at h
            simp only [exbind_ok, Except.ok.injEq, Prod.mk.injEq] at h
            obtain ⟨hse, _⟩ := h
            subst hse
            rfl

theorem observe_ok_trace (u : Nat → String) (http : Transport) (kind : Kind)
    (api obs : String) (n : Nat) (d : ObservedMap)
    (h : (observe u http kind api obs n).1 = .ok d) :
    (observe u http kind api obs n).2
      = (fetch http api (kind.filter obs) true).2
        ++ (fetch http api (kind.filter obs) false).2 := by
  obtain ⟨body₁, evs₁, ob₁, n₁, body₂, evs₂, n₂, hf₁, hi₁, hme₁, hf₂, hi₂, hme₂⟩ :=
    observe_ok_decomp u http kind api obs n d h
  simp only [observe]
  rcases hfp₁ : fetch http api (kind.filter obs) true with ⟨r₁, t₁⟩
  have hr₁ : r₁ = .ok body₁ := by
    first
    | exact hf₁
    | (rw [hfp₁] at hf₁; exact hf₁)
  subst hr₁
  simp only [hi₁, hme₁]
  rcases hfp₂ : fetch http api (kind.filter obs) false with ⟨r₂, t₂⟩
  have hr₂ : r₂ = .ok body₂ := by
    first
    | exact hf₂
    | (rw [hfp₂] at hf₂; exact hf₂)
  subst hr₂
  simp only [hi₂, hme₂]

/-- Claim C3: `observe` performs the active-state query phase first and the
unfiltered phase second; the query URL carries the `state=true` flag exactly
in the active phase and always carries the observable's filter; every event
is mapped with its phase's flag, so the sighting's `Active` data row is the
string "True" in the active phase and "False" in the inactive phase; and the
result is the per-entity-type list concatenation of the phase-1 bundles
followed by the phase-2 bundles, in API response order within a phase. -/
theorem claim3_two_phase :
    (∀ api filt : String,
      qualysURL api filt true = api ++ "/ioc/events?state=true&filter=" ++ filt) ∧
    (∀ api filt : String,
      qualysURL api filt false = api ++ "/ioc/events?filter=" ++ filt) ∧
    (∀ (http : Transport) (api filt : String) (active_ : Bool),
      ∀ p ∈ (fetch http api filt active_).2, p.1 = qualysURL api filt active_) ∧
    (∀ (u : Nat → String) (http : Transport) (kind : Kind) (api obs : String)
       (n : Nat) (d : ObservedMap),
      (observe u http kind api obs n).1 = .ok d →
      (observe u http kind api obs n).2
        = (fetch http api (kind.filter obs) true).2
          ++ (fetch http api (kind.filter obs) false).2) ∧
    (∀ (u : Nat → String) (kt o : String) (event : JVal) (active : Bool)
       (n : Nat) (b : Bundle) (m : Nat),
      map u kt o event active n = .ok (b, m) →
      b.sightings.map (fun s => s.data.rows) = [[[pyStrBool active]]]) ∧
    (pyStrBool true = "True" ∧ pyStrBool false = "False") ∧
    (∀ (u : Nat → String) (http : Transport) (kind : Kind) (api obs : String)
       (n : Nat) (d : ObservedMap) (body₁ : JVal) (evs₁ : List JVal)
       (bs₁ : List Bundle) (n₁ : Nat) (body₂ : JVal) (evs₂ : List JVal)
       (bs₂ : List Bundle) (n₂ : Nat),
      (observe u http kind api obs n).1 = .ok d →
      (fetch http api (kind.filter obs) true).1 = .ok body₁ → pyIter body₁ = .ok evs₁ →
      mapList u kind.type obs true evs₁ n = .ok (bs₁, n₁) →
      (fetch http api (kind.filter obs) false).1 = .ok body₂ → pyIter body₂ = .ok evs₂ →
      mapList u kind.type obs false evs₂ n₁ = .ok (bs₂, n₂) →
      d = (bs₁ ++ bs₂).foldl (fun ob b => mergeBundle ob b.items) [] ∧
      (bs₁ ++ bs₂ ≠ [] → d = concatDict (bs₁ ++ bs₂))) := by
  refine ⟨fun api filt => rfl, fun api filt => rfl, ?_, observe_ok_trace, ?_, ⟨rfl, rfl⟩, ?_⟩
  · intro http api filt active_ p hp
    by_cases h : (http (qualysURL api filt active_) false).status = 401
    · simp [fetch, h, apply_ite Prod.snd, ite_self] at hp
      rcases hp with hp | hp <;> simp [hp]
    · simp [fetch, h, apply_ite Prod.snd, ite_self] at hp
      simp [hp]
  · intro u kt o event active n b m hm
    obtain ⟨s, n₁, v, entries, js, n₂, ind, n₃, r₁, n₄, r₂, n₅, r₃, n₆,
      hs, hv, he, hj, hi, hr₁, hr₂, hr₃, hb, hm₆⟩ := map_ok_decomp u kt o event active n b m hm
    rw [hb]
    show [s].map (fun s => s.data.rows) = [[[pyStrBool active]]]
    rw [List.map_cons, sightingBuild_rows u kt o event active n s n₁ hs]
    rfl
  · intro u http kind api obs n d body₁ evs₁ bs₁ n₁ body₂ evs₂ bs₂ n₂
      hobs hfb₁ hib₁ hml₁ hfb₂ hib₂ hml₂
    obtain ⟨b₁, e₁, ob₁, m₁, b₂, e₂, m₂, hf₁, hi₁, hme₁, hf₂, hi₂, hme₂⟩ :=
      observe_ok_decomp u http kind api obs n d hobs
    rw [hfb₁] at hf₁
    injection hf₁ with hbb₁
    subst hbb₁
    rw [hib₁] at hi₁
    injection hi₁ with hee₁
    subst hee₁
    rw [hfb₂] at hf₂
    injection hf₂ with hbb₂
    subst hbb₂
    rw [hib₂] at hi₂
    injection hi₂ with hee₂
    subst hee₂
    have hme₁' := mapEvents_from_mapList u kind.type obs true evs₁ [] n bs₁ n₁ hml₁
    rw [hme₁'] at hme₁
    injection hme₁ with hme₁
    injection hme₁ with hob₁ hn₁
    subst hob₁
    subst hn₁
    have hme₂' := mapEvents_from_mapList u kind.type obs false evs₂
      (bs₁.foldl (fun ob b => mergeBundle ob b.items) []) n₁ bs₂ n₂ hml₂
    rw [hme₂'] at hme₂
    injection hme₂ with hme₂
    injection hme₂ with hd hn₂
    have hdd : d = (bs₁ ++ bs₂).foldl (fun ob b => mergeBundle ob b.items) [] := by
      rw [List.foldl_append]
      exact hd.symm
    exact ⟨hdd, fun hne => by rw [hdd, fold_from_nil _ hne]⟩

/-- Witness for claim C3 at a concrete transport: the request trace is the
active-phase URL (with `state=true` and the filter) followed by the
inactive-phase URL (filter only), and a concrete active-phase `map` yields
the `Active` row "True". -/
theorem claim3_two_phase_witness :
    (observe uNat http200one .md5 "A" "o" 0).2
      = [("A/ioc/events?state=true&filter=file.hash.md5: \"o\"", false),
         ("A/ioc/events?filter=file.hash.md5: \"o\"", false)] ∧
    (map uNat "md5" "o" (.obj [("asset", .obj [])]) true 0).map
        (fun bn => bn.1.sightings.map fun s => s.data.rows)
      = .ok [[["True"]]] := by
  constructor
  · obtain ⟨d, hd⟩ : ∃ d, (observe uNat http200one .md5 "A" "o" 0).1 = .ok d := ⟨_, rfl⟩
    exact (claim3_two_phase.2.2.2.1 uNat http200one .md5 "A" "o" 0 d hd).trans rfl
  · obtain ⟨p, hp⟩ : ∃ p, map uNat "md5" "o" (.obj [("asset", .obj [])]) true 0 = .ok p :=
      ⟨_, rfl⟩
    obtain ⟨b, m⟩ := p
    have h := claim3_two_phase.2.2.2.2.1 uNat "md5" "o" (.obj [("asset", .obj [])]) true 0 b m hp
    rw [hp]
    simp only [Except.map, h]
    rfl

/-! ## Claim C6 — missing event fields never raise

The claim fails as stated: `targets` indexes `event['asset']` directly, so
an event without an `asset` key makes `map` raise `KeyError` while building
the sighting.  For events whose documented paths, when present, have their
documented container shapes (and whose `asset` record is present), `map`
indeed never raises. -/

/-- A documented top-level sub-record (`file`, `process`, `network`): absent
or a keyed record. -/
def okShapeOpt : Option JVal → Bool
  | none => true
  | some (.obj _) => true
  | some _ => false

/-- The `.indicator2` value: absent, falsy, or a list of well-shaped
entries. -/
def entryListOK : Option JVal → Bool
  | none => true
  | some v =>
    !v.truthy ||
      (match v with
       | .arr xs => xs.all entryShape
       | _ => false)

/-- The `asset.interfaces` value: absent, falsy, or a list of keyed
records. -/
def interfacesOK : Option JVal → Bool
  | none => true
  | some v =>
    !v.truthy ||
      (match v with
       | .arr xs => xs.all fun i => match i with | .obj _ => true | _ => false
       | _ => false)

/-- Events on which no `map` code path can raise: a keyed record whose
`asset` is a keyed record, with documented sub-paths of documented shapes
when present. -/
def WellShapedEvent : JVal → Bool
  | .obj kvs =>
    (match kvs.lookup "asset" with
     | some (.obj akvs) => interfacesOK (akvs.lookup "interfaces")
     | _ => false)
    && okShapeOpt (kvs.lookup "file")
    && okShapeOpt (kvs.lookup "process")
    && okShapeOpt (kvs.lookup "network")
    && entryListOK (kvs.lookup "indicator2")
  | _ => false

theorem getAux_leaf_ok (kvs : List (String × JVal)) (k : String) (d : JVal) :
    ∃ w, getAux (.obj kvs) [k] d = .ok w := by
  cases hl : kvs.lookup k with
  | none => exact ⟨d, by simp [getAux, hl]⟩
  | some v => exact ⟨v, by simp [getAux, hl]⟩

theorem getAux_two_ok (kvs : List (String × JVal)) (k₁ k₂ : String) (d : JVal)
    (h : okShapeOpt (kvs.lookup k₁) = true) :
    ∃ w, getAux (.obj kvs) [k₁, k₂] d = .ok w := by
  cases hl : kvs.lookup k₁ with
  | none => exact ⟨d, by simp [getAux, hl]⟩
  | some v =>
    rw [hl] at h
    cases v with
    | obj kvs₂ =>
      obtain ⟨w, hw⟩ := getAux_leaf_ok kvs₂ k₂ d
      exact ⟨w, by simp only [getAux, hl]; exact hw⟩
    | _ => simp [okShapeOpt] at h

theorem relationsAux_ok_of (e : JVal) : ∀ rules : List Rule,
    (∀ r ∈ rules, (∃ w, get e r.sourcePath = .ok w) ∧ (∃ w, get e r.targetPath = .ok w)) →
    ∃ rs, relationsAux e rules = .ok rs := by
  intro rules
  induction rules with
  | nil => intro h; exact ⟨[], rfl⟩
  | cons r rest ih =>
    intro h
    obtain ⟨⟨sv, hsv⟩, ⟨tv, htv⟩⟩ := h r (by simp)
    obtain ⟨rs₂, hrs₂⟩ := ih fun r₂ hr₂ => h r₂ (by simp [hr₂])
    exact ⟨if (sv.truthy && tv.truthy) = true then
             { origin := "Qualys IOC", related := ⟨r.targetType, tv⟩,
               relation := r.label, source := ⟨r.sourceType, sv⟩ } :: rs₂
           else rs₂,
           by simp only [relationsAux, hsv, htv, hrs₂, exbind_ok]⟩

theorem relations_ok (kvs : List (String × JVal))
    (hfile : okShapeOpt (kvs.lookup "file") = true)
    (hproc : okShapeOpt (kvs.lookup "process") = true)
    (hnet : okShapeOpt (kvs.lookup "network") = true) :
    ∃ rs, relations (.obj kvs) = .ok rs := by
  apply relationsAux_ok_of
  intro r hr
  simp only [relationRules, List.mem_cons, List.not_mem_nil, or_false] at hr
  rcases hr with rfl | rfl | rfl | rfl | rfl | rfl | rfl <;>
    exact ⟨getAux_two_ok kvs _ _ .null (by assumption),
           getAux_two_ok kvs _ _ .null (by assumption)⟩

/-- Whether an `Except` holds a success. -/
def exOk {α : Type} : Except PyErr α → Bool
  | .ok _ => true
  | .error _ => false

theorem exOk_exists_pair {α β : Type} (x : Except PyErr (α × β)) (h : exOk x = true) :
    ∃ a b, x = .ok (a, b) := by
  cases x with
  | ok p => exact ⟨p.1, p.2, rfl⟩
  | error e => simp [exOk] at h

theorem getD_truthy_some (kvs : List (String × JVal)) (k : String)
    (h : ((kvs.lookup k).getD JVal.null).truthy = true) :
    ∃ w, kvs.lookup k = some w ∧ w.truthy = true := by
  cases hl : kvs.lookup k with
  | none => rw [hl] at h; simp [JVal.truthy] at h
  | some w => rw [hl] at h; exact ⟨w, rfl, h⟩

theorem targetsIfs_ok : ∀ ifs : List JVal,
    (∀ i ∈ ifs, (match i with | JVal.obj _ => true | _ => false) = true) →
    ∃ ts, targetsIfs ifs = .ok ts := by
  intro ifs
  induction ifs with
  | nil => intro h; exact ⟨[], rfl⟩
  | cons i is_ ih =>
    intro h
    have hi := h i (by simp)
    cases i with
    | obj kvs =>
      obtain ⟨ts₂, hts₂⟩ := ih fun j hj => h j (by simp [hj])
      by_cases hip : ((List.lookup "ipAddress" kvs).getD JVal.null).truthy = true
      · obtain ⟨w₁, hw₁, hwt₁⟩ := getD_truthy_some kvs "ipAddress" hip
        by_cases hmac : ((List.lookup "macAddress" kvs).getD JVal.null).truthy = true
        · obtain ⟨w₂, hw₂, hwt₂⟩ := getD_truthy_some kvs "macAddress" hmac
          exact ⟨[TargetObs.mk "ip" w₁] ++ [TargetObs.mk "mac_address" w₂] ++ ts₂,
            by simp [targetsIfs, pyDictGet, hip, hmac, pyIndexStr, hw₁, hw₂, hwt₁, hwt₂,
              hts₂, pure, Except.pure]⟩
        · exact ⟨[TargetObs.mk "ip" w₁] ++ [] ++ ts₂,
            by simp [targetsIfs, pyDictGet, hip, hmac, pyIndexStr, hw₁, hwt₁, hts₂,
              pure, Except.pure]⟩
      · by_cases hmac : ((List.lookup "macAddress" kvs).getD JVal.null).truthy = true
        · obtain ⟨w₂, hw₂, hwt₂⟩ := getD_truthy_some kvs "macAddress" hmac
          exact ⟨[] ++ [TargetObs.mk "mac_address" w₂] ++ ts₂,
            by simp [targetsIfs, pyDictGet, hip, hmac, pyIndexStr, hw₂, hwt₂, hts₂,
              pure, Except.pure]⟩
        · exact ⟨[] ++ [] ++ ts₂,
            by simp [targetsIfs, pyDictGet, hip, hmac, hts₂, pure, Except.pure]⟩
    | null => simp at hi
    | bool b => simp at hi
    | num v => simp at hi
    | str s => simp at hi
    | arr xs => simp at hi

theorem targets_ok (kvs akvs : List (String × JVal))
    (hasset : kvs.lookup "asset" = some (.obj akvs))
    (hif : interfacesOK (akvs.lookup "interfaces") = true) :
    ∃ ts, targets (.obj kvs) = .ok ts := by
  obtain ⟨ifs, hifs, hall⟩ : ∃ ifs,
      pyIter (pythonOr ((akvs.lookup "interfaces").getD .null) (.arr [])) = .ok ifs ∧
      ∀ i ∈ ifs, (match i with | JVal.obj _ => true | _ => false) = true := by
    cases hl : akvs.lookup "interfaces" with
    | none => exact ⟨[], by simp [hl, pythonOr, JVal.truthy, pyIter], by simp⟩
    | some v =>
      rw [hl] at hif
      simp only [interfacesOK] at hif
      by_cases ht : v.truthy = true
      · rw [ht] at hif
        simp only [Bool.not_true, Bool.false_or] at hif
        cases v with
        | arr xs =>
          refine ⟨xs, by simp [hl, pythonOr, ht, pyIter], ?_⟩
          intro i hi
          exact List.all_eq_true.mp hif i hi
        | null => simp at hif
        | bool b => simp at hif
        | num m => simp at hif
        | str s => simp at hif
        | obj okvs => simp at hif
      · exact ⟨[], by simp [hl, pythonOr, ht, pyIter], by simp⟩
  obtain ⟨rest, hrest⟩ := targetsIfs_ok ifs hall
  by_cases hnb : ((List.lookup "netBiosName" akvs).getD JVal.null).truthy = true
  · obtain ⟨w, hw, hwt⟩ := getD_truthy_some akvs "netBiosName" hnb
    exact ⟨[TargetObs.mk "hostname" w] ++ rest,
      by simp [targets, pyIndexStr, hasset, pyDictGet, hnb, hw, hwt, hifs, hrest,
        pure, Except.pure]⟩
  · exact ⟨[] ++ rest,
      by simp [targets, pyIndexStr, hasset, pyDictGet, hnb, hifs, hrest,
        pure, Except.pure]⟩

theorem judgementBuild_ok (u : Nat → String) (kt o : String)
    (kvs : List (String × JVal)) (x : JVal) (n : Nat) (hx : entryShape x = true) :
    ∃ j m, judgementBuild u kt o (.obj kvs) x n = .ok (j, m) := by
  apply exOk_exists_pair
  cases x with
  | obj xk =>
    obtain ⟨eid, heid⟩ := getAux_leaf_ok kvs "id" .null
    have hg : get (JVal.obj kvs) ".id" = Except.ok eid := heid
    simp only [entryShape] at hx
    cases hv : xk.lookup "verdict" with
    | none =>
      simp only [judgementBuild, pyDictGet, exbind_ok, hv, Option.getD, hashableGet, hg, exOk]
    | some w =>
      rw [hv] at hx
      cases w with
      | arr xs => simp at hx
      | obj wkvs => simp at hx
      | null =>
        simp only [judgementBuild, pyDictGet, exbind_ok, hv, Option.getD, hashableGet, hg, exOk]
      | bool b =>
        simp only [judgementBuild, pyDictGet, exbind_ok, hv, Option.getD, hashableGet, hg, exOk]
      | num v =>
        simp only [judgementBuild, pyDictGet, exbind_ok, hv, Option.getD, hashableGet, hg, exOk]
      | str s =>
        simp only [judgementBuild, pyDictGet, exbind_ok, hv, Option.getD, hashableGet, hg, exOk]
  | null => simp [entryShape] at hx
  | bool b => simp [entryShape] at hx
  | num v => simp [entryShape] at hx
  | str s => simp [entryShape] at hx
  | arr xs => simp [entryShape] at hx

theorem judgementsBuild_ok (u : Nat → String) (kt o : String)
    (kvs : List (String × JVal)) : ∀ entries : List JVal,
    (∀ x ∈ entries, entryShape x = true) →
    ∀ n, ∃ js m, judgementsBuild u kt o (.obj kvs) entries n = .ok (js, m) := by
  intro entries
  induction entries with
  | nil => intro h n; exact ⟨[], n, rfl⟩
  | cons x xs ih =>
    intro h n
    obtain ⟨j, m₁, hj⟩ := judgementBuild_ok u kt o kvs x n (h x (by simp))
    obtain ⟨js, m₂, hjs⟩ := ih (fun y hy => h y (by simp [hy])) m₁
    exact ⟨j :: js, m₂, by simp only [judgementsBuild, hj, hjs, exbind_ok]⟩

/-- Claim C6 is false as stated: an event without an `asset` key makes `map`
raise `KeyError` (from the `event['asset']` indexing inside `targets`,
forced while building the sighting), instead of silently yielding
empty/null-valued fields. -/
theorem claim6_counterexample :
    map uNat "md5" "o" (.obj []) true 0 = .error .keyError := rfl

/-- Claim C6 (amended): missing fields are not errors provided the event is
a keyed record whose `asset` sub-record is present and keyed and whose
documented paths, when present, have their documented container shapes —
on such events `map` never raises, and an absent or falsy interface list
yields no target observables beyond the (optional) hostname entry.  An
event lacking `asset` makes `map` raise `KeyError`. -/
theorem claim6_missing_fields :
    (∀ (u : Nat → String) (kt o : String) (event : JVal) (active : Bool) (n : Nat),
      WellShapedEvent event = true →
      ∃ b m, map u kt o event active n = .ok (b, m)) ∧
    (∀ (kvs akvs : List (String × JVal)),
      kvs.lookup "asset" = some (.obj akvs) →
      pythonOr ((akvs.lookup "interfaces").getD .null) (.arr []) = .arr [] →
      targets (.obj kvs) = .ok
        (match akvs.lookup "netBiosName" with
         | some w => if w.truthy then [TargetObs.mk "hostname" w] else []
         | none => [])) := by
  constructor
  · intro u kt o event active n hw
    cases event with
    | obj kvs =>
      simp only [WellShapedEvent, Bool.and_eq_true] at hw
      obtain ⟨⟨⟨⟨hassetm, hfile⟩, hproc⟩, hnet⟩, hind⟩ := hw
      obtain ⟨akvs, hasset, hifok⟩ : ∃ akvs,
          kvs.lookup "asset" = some (.obj akvs) ∧
          interfacesOK (akvs.lookup "interfaces") = true := by
        cases hl : kvs.lookup "asset" with
        | none => rw [hl] at hassetm; simp at hassetm
        | some v =>
          rw [hl] at hassetm
          cases v with
          | obj akvs => exact ⟨akvs, rfl, hassetm⟩
          | null => simp at hassetm
          | bool b => simp at hassetm
          | num q => simp at hassetm
          | str s => simp at hassetm
          | arr xs => simp at hassetm
      obtain ⟨eid, heid⟩ := getAux_leaf_ok kvs "id" .null
      have hgid : get (JVal.obj kvs) ".id" = Except.ok eid := heid
      obtain ⟨dt, hdt⟩ := getAux_leaf_ok kvs "dateTime" .null
      have hgdt : get (JVal.obj kvs) ".dateTime" = Except.ok dt := hdt
      obtain ⟨rels, hrels⟩ := relations_ok kvs hfile hproc hnet
      obtain ⟨tgts, htgts⟩ := targets_ok kvs akvs hasset hifok
      obtain ⟨os, hos⟩ := getAux_two_ok kvs "asset" "fullOSName" .null (by rw [hasset]; rfl)
      have hgos : get (JVal.obj kvs) ".asset.fullOSName" = Except.ok os := hos
      obtain ⟨s, n₁, hsb⟩ : ∃ s n₁,
          sightingBuild u kt o (.obj kvs) active n = .ok (s, n₁) := by
        apply exOk_exists_pair
        simp only [sightingBuild, hgid, hgdt, hrels, htgts, hgos, exbind_ok, exOk]
      have hv : get (JVal.obj kvs) ".indicator2"
          = .ok ((kvs.lookup "indicator2").getD .null) := by
        show getAux (JVal.obj kvs) ["indicator2"] .null = _
        cases hl : kvs.lookup "indicator2" <;> simp [getAux, hl]
      obtain ⟨entries, hent, hallent⟩ : ∃ entries,
          pyIter (pythonOr ((kvs.lookup "indicator2").getD .null) (.arr [])) = .ok entries ∧
          ∀ x ∈ entries, entryShape x = true := by
        cases hl : kvs.lookup "indicator2" with
        | none => exact ⟨[], by simp [hl, pythonOr, JVal.truthy, pyIter], by simp⟩
        | some v =>
          rw [hl] at hind
          simp only [entryListOK] at hind
          by_cases ht : v.truthy = true
          · rw [ht] at hind
            simp only [Bool.not_true, Bool.false_or] at hind
            cases v with
            | arr xs =>
              refine ⟨xs, by simp [hl, pythonOr, ht, pyIter], ?_⟩
              intro x hx
              exact List.all_eq_true.mp hind x hx
            | null => simp at hind
            | bool b => simp at hind
            | num q => simp at hind
            | str s₂ => simp at hind
            | obj okvs => simp at hind
          · exact ⟨[], by simp [hl, pythonOr, ht, pyIter], by simp⟩
      obtain ⟨js, n₂, hjs⟩ := judgementsBuild_ok u kt o kvs entries hallent n₁
      obtain ⟨ind, n₃, hib⟩ : ∃ ind n₃, indicatorBuild u (.obj kvs) n₂ = .ok (ind, n₃) := by
        apply exOk_exists_pair
        simp only [indicatorBuild, hgid, exbind_ok, exOk]
      rcases hrel₁ : relationship u (js.map (·.id)) "based-on" [ind.id] n₃ with ⟨r₁, n₄⟩
      rcases hrel₂ : relationship u [s.id] "based-on" (js.map (·.id)) n₄ with ⟨r₂, n₅⟩
      rcases hrel₃ : relationship u [s.id] "sighting-of" [ind.id] n₅ with ⟨r₃, n₆⟩
      exact ⟨⟨[s], js, [ind], r₁ ++ r₂ ++ r₃⟩, n₆,
        by simp only [map, hsb, hv, hent, hjs, hib, hrel₁, hrel₂, hrel₃, exbind_ok]⟩
    | null => simp [WellShapedEvent] at hw
    | bool b => simp [WellShapedEvent] at hw
    | num q => simp [WellShapedEvent] at hw
    | str s => simp [WellShapedEvent] at hw
    | arr xs => simp [WellShapedEvent] at hw
  · intro kvs akvs hasset hor
    cases hl : List.lookup "netBiosName" akvs with
    | none =>
      simp [targets, pyIndexStr, hasset, pyDictGet, hl, JVal.truthy, hor, pyIter,
        targetsIfs, pure, Except.pure]
    | some w =>
      by_cases hwt : w.truthy = true
      · simp [targets, pyIndexStr, hasset, pyDictGet, hl, hwt, hor, pyIter,
          targetsIfs, pure, Except.pure]
      · simp [targets, pyIndexStr, hasset, pyDictGet, hl, hwt, hor, pyIter,
          targetsIfs, pure, Except.pure]

/-- The witness event for the amended claim C6: a well-shaped event with a
hostname and no interface list. -/
def evC6 : JVal := .obj [("asset", .obj [("netBiosName", .str "HOST")])]

/-- Witness for the amended claim C6: on a well-shaped event `map` succeeds,
and the absent interface list yields only the hostname target. -/
theorem claim6_missing_fields_witness :
    exOk (map uNat "md5" "o" evC6 true 0) = true ∧
    targets evC6 = .ok [TargetObs.mk "hostname" (.str "HOST")] := by
  constructor
  · obtain ⟨b, m, h⟩ := claim6_missing_fields.1 uNat "md5" "o" evC6 true 0 (by decide)
    rw [h]
    rfl
  · exact (claim6_missing_fields.2 [("asset", .obj [("netBiosName", .str "HOST")])]
      [("netBiosName", .str "HOST")] rfl rfl).trans rfl

end Qualys
